import Mathlib

/-!
Zemog worker: the task execution pipeline.

A shallow embedding of `src/src/{queue,file,executor,metrics,app}.js`.

* Every promise is modelled by the effects it issues (a trace of calls to the
  outside world, in order) together with the way it settles: resolved,
  rejected, or never settled.
* Everything the outside world answers (queue, blob store, file system, clock,
  the spawned runner) is read from a `World` record, so each function below is
  a total, executable function of its arguments and of the world.
* Strings are Lean strings; text that the code scans character by character is
  handled as the list of its characters.
* Log lines are not modelled.
-/

namespace Zemog

/-! ## Errors (`src/src/errors.js`) and promises -/

/-- The values a promise of the worker can be rejected with: the error classes of
`errors.js`, the built-in `TypeError`, `AssertionError` (thrown by `assert`) and
plain `Error`, an AWS SDK error with its `code`, and the captured stdout text that
`TestExecutor.execute` rejects with. Messages are not modelled. -/
inductive JsError where
  | EmptyQueueError
  | JSONParseError
  | FileOperationError
  | ConfigurationParseError
  | TestNotFound
  | TestResultNotUploaded
  | InternalTestExecutionError
  | TypeError
  | AssertionError
  | Error
  | awsError (code : String)
  | stdoutText (stdout : String)
  deriving DecidableEq, Repr

deriving instance DecidableEq for Except

/-- The `{Bucket, Key}` object of `File.getPathObject`. -/
structure PathObject where
  Bucket : String
  Key : String
  deriving DecidableEq, Repr

/-- One entry of `MetricData` in `Metrics.put`. `Dimensions` is absent on the first
entry. The timestamp is not modelled. -/
structure MetricDatum where
  MetricName : String
  Unit : String
  Value : Int
  Dimensions : Option (List (String × String))
  deriving DecidableEq, Repr

/-- The `params` object handed to `putMetricData`. -/
structure MetricParams where
  Namespace : String
  MetricData : List MetricDatum
  deriving DecidableEq, Repr

/-- The `params` object handed to `putObject` (the body stream is named by the file
it reads). -/
structure PutParams where
  Bucket : String
  Key : String
  Body : String
  Expires : String
  deriving DecidableEq, Repr

/-- The two notification channels of `src/src/notifications`. -/
inductive Channel where
  | victorOps
  | clickatell
  deriving DecidableEq, Repr

/-- Calls to the outside world, recorded in the order the code issues them. -/
inductive Effect where
  | receiveMessage (queueUrl : String)
  | deleteMessage (queueUrl : String) (receiptHandle : Option String)
  | mkdir (folder : String)
  | rimraf (path : String)
  | headObject (target : PathObject)
  | getObject (target : PathObject)
  | writeFile (path : String) (body : String)
  | decompress (archive : String) (dest : String)
  | putMetricData (params : MetricParams)
  | spawn (command : String) (args : List String) (cwd : String)
  | createWriteStream (path : String)
  | readDir (src : String)
  | putObject (params : PutParams)
  | sendNotification (channel : Channel) (code : String) (appName : String)
      (testName : String) (src : String)
  deriving DecidableEq, Repr

/-- How a promise ends: resolved with a value, rejected with a reason, or never
settled. -/
inductive Settled (α : Type) where
  | resolved (value : α)
  | rejected (reason : JsError)
  | pending
  deriving DecidableEq, Repr

/-- A promise (or a synchronous call that may throw): the effects issued while it
ran, and how it settled. -/
structure Run (α : Type) where
  trace : List Effect
  result : Settled α
  deriving DecidableEq, Repr

namespace Run

/-- A value that is already there: `Promise.resolve(value)`. -/
def resolve {α : Type} (value : α) : Run α := ⟨[], .resolved value⟩

/-- A `throw` (inside a promise callback: a rejection). -/
def throw {α : Type} (reason : JsError) : Run α := ⟨[], .rejected reason⟩

/-- A promise nothing will ever settle. -/
def never {α : Type} : Run α := ⟨[], .pending⟩

/-- One call to the outside world. -/
def emit (e : Effect) : Run Unit := ⟨[e], .resolved ()⟩

/-- Lifts the answer of the outside world to a promise. -/
def ofExcept {α : Type} : Except JsError α → Run α
  | .ok value => resolve value
  | .error reason => throw reason

/-- The `.then(callback)` of a promise: the callback runs only when the promise
resolves, and a throw inside it rejects the result. -/
def andThen {α β : Type} (p : Run α) (callback : α → Run β) : Run β :=
  match p.result with
  | .resolved value => ⟨p.trace ++ (callback value).trace, (callback value).result⟩
  | .rejected reason => ⟨p.trace, .rejected reason⟩
  | .pending => ⟨p.trace, .pending⟩

/-- The `.catch(handler)` of a promise: the handler runs only when the promise is
rejected. -/
def catchWith {α : Type} (p : Run α) (handler : JsError → Run α) : Run α :=
  match p.result with
  | .resolved value => ⟨p.trace, .resolved value⟩
  | .rejected reason => ⟨p.trace ++ (handler reason).trace, (handler reason).result⟩
  | .pending => ⟨p.trace, .pending⟩

end Run

/-! ## Text helpers: the parts of `String.prototype` and of Node's `path` the code uses -/

/-- JavaScript `str.split(sep)` for a one-character separator. -/
def splitChar (sep : Char) : List Char → List (List Char)
  | [] => [[]]
  | c :: cs =>
    if c = sep then [] :: splitChar sep cs
    else
      match splitChar sep cs with
      | [] => [[c]]
      | seg :: segs => (c :: seg) :: segs

/-- JavaScript `arr.join(sep)` for a one-character separator. -/
def joinChar (sep : Char) : List (List Char) → List Char
  | [] => []
  | [seg] => seg
  | seg :: segs => seg ++ sep :: joinChar sep segs

/-- JavaScript `str.replace(from, to)` with one-character strings: only the first
occurrence is replaced. -/
def replaceFirstChar (src dst : Char) : List Char → List Char
  | [] => []
  | c :: cs => if c = src then dst :: cs else c :: replaceFirstChar src dst cs

/-- JavaScript `str.replace(/:/g, '-')`-style replacement: every occurrence. -/
def replaceAllChar (src dst : Char) (s : List Char) : List Char :=
  s.map fun c => if c = src then dst else c

/-- Node's `normalizeString` (posix): walks the segments of a path, dropping empty
and `.` segments and resolving `..` against the segments kept so far, which are held
in reverse order in `kept`. -/
def normalizeSegments (allowAboveRoot : Bool) :
    List (List Char) → List (List Char) → List (List Char)
  | [], kept => kept.reverse
  | seg :: segs, kept =>
    if seg = [] ∨ seg = ['.'] then normalizeSegments allowAboveRoot segs kept
    else if seg = ['.', '.'] then
      match kept with
      | last :: before =>
        if last = ['.', '.'] then
          normalizeSegments allowAboveRoot segs
            (if allowAboveRoot then seg :: kept else kept)
        else normalizeSegments allowAboveRoot segs before
      | [] =>
        normalizeSegments allowAboveRoot segs (if allowAboveRoot then [seg] else [])
    else normalizeSegments allowAboveRoot segs (seg :: kept)

/-- Node's `path.posix.normalize`. -/
def pathNormalize (p : List Char) : List Char :=
  if p = [] then ['.']
  else
    let isAbsolute := p.head? = some '/'
    let trailingSeparator := p.getLast? = some '/'
    let body := joinChar '/' (normalizeSegments (!isAbsolute) (splitChar '/' p) [])
    let body := if body = [] ∧ ¬ isAbsolute then ['.'] else body
    let body := if body ≠ [] ∧ trailingSeparator then body ++ ['/'] else body
    if isAbsolute then '/' :: body else body

/-- Node's `path.posix.join`: the non-empty arguments joined by `/`, normalized. -/
def pathJoinChars (parts : List (List Char)) : List Char :=
  match parts.filter (fun part => part ≠ []) with
  | [] => ['.']
  | kept => pathNormalize (joinChar '/' kept)

/-- Node's `path.join` on strings. -/
def pathJoin (parts : List String) : String :=
  ⟨pathJoinChars (parts.map String.data)⟩

/-! ## Configuration, task and the outside world -/

/-- The `victorOps` block of one notification code. An absent `url` is the empty
string. -/
structure VictorOpsConfig where
  isEnabled : Bool
  url : String
  deriving DecidableEq, Repr

/-- The `clickatell` block of one notification code. An absent `authorizationToken`
is the empty string. -/
structure ClickatellConfig where
  isEnabled : Bool
  authorizationToken : String
  recipients : Option (List String)
  deriving DecidableEq, Repr

/-- The value of `config.notifications[code]`. -/
structure NotificationConfig where
  victorOps : Option VictorOpsConfig
  clickatell : Option ClickatellConfig
  deriving DecidableEq, Repr

/-- The `debug` block of the configuration. -/
structure DebugParams where
  useMockedQueueMessage : Bool
  doNotDeleteMessagesInQueue : Bool
  deriving DecidableEq, Repr

/-- The configuration object, as far as the pipeline reads it. It is the object the
constructors of `Queue`, `File`, `TestExecutor` and `Metrics` have accepted:
`iridiumPath` and `queueName` are set and `iridiumLaunchParameters` (absent: empty)
is an array. `testResultPath` already holds the default
`{bucket: 'zemog-bucket', key: 'tests/result/'}` and `daysToKeepTestResult` the
default `7` when the file leaves them out. -/
structure Config where
  queueName : String
  iridiumPath : String
  iridiumLaunchParameters : List String
  notifications : List (String × NotificationConfig)
  testResultBucket : String
  testResultKey : String
  daysToKeepTestResult : Nat
  debug : DebugParams

/-- The parsed queue message body `{test, app?, location, notifications?}`. -/
structure Task where
  test : String
  app : Option String
  location : String
  notifications : Option (List String)
  deriving DecidableEq, Repr

/-- One message of a receive response. -/
structure Message where
  Body : String
  ReceiptHandle : Option String
  deriving DecidableEq, Repr

/-- The response of `receiveMessage`; `Messages` may be absent. -/
structure ReceiveResponse where
  Messages : Option (List Message)
  deriving DecidableEq, Repr

/-- What `fs.existsSync` and `fs.statSync` find at a path. -/
inductive FolderProbe where
  | absent
  | file
  | directory
  deriving DecidableEq, Repr

/-- A value of the execution manifest `zemog.json` under one top-level key: JSON
`null`, a number, boolean or string (of which only its truthiness matters), or an
object or array together with its `launchParameters` property, which is an array of
strings or, as `none`, absent or falsy. An object whose `launchParameters` is any
other value is not represented. -/
inductive ManifestValue where
  | null
  | primitive (truthy : Bool)
  | object (launchParameters : Option (List String))
  deriving DecidableEq, Repr

/-- The manifest: the own properties of the object `require` returns, in order. -/
abbrev Manifest := List (String × ManifestValue)

/-- What the `close` event of the spawned runner carries (`code` is `null` when a
signal ended the process) and what was captured from its streams. -/
structure RunnerExit where
  code : Option Int
  stdout : String
  stderr : String
  deriving DecidableEq, Repr

/-- Everything the outside world answers during one run. -/
structure World where
  /-- The value of `os.tmpdir()`. -/
  tmpdir : String
  /-- The value of `__dirname` in `src/`. -/
  dirname : String
  /-- The value of `moment().valueOf()`. -/
  now : Nat
  /-- The value of `new Date().toISOString()` at upload. -/
  isoNow : String
  /-- The value of `date.toISOString()` after `daysToKeepTestResult` days were added. -/
  isoExpiry : Nat → String
  /-- The text of `Math.random()`. -/
  random : String
  /-- The value of `metrics._instanceId` during the run: `'Local'` unless the metadata
  service has answered. -/
  instanceId : String
  /-- What `createFolderIfNeeded` finds at a folder. -/
  folderProbe : String → FolderProbe
  /-- Whether `fs.mkdirSync` throws. -/
  mkdirFails : String → Bool
  /-- The answer of `getQueueUrl`. -/
  queueUrl : Except JsError String
  /-- The answer of `receiveMessage`. -/
  receive : Except JsError ReceiveResponse
  /-- The answer of `deleteMessage`. -/
  delete : Except JsError Unit
  /-- The outcome of `JSON.parse` on a message body; `none` when it throws. -/
  jsonParse : String → Option Task
  /-- The answer of `headObject`: the parsed `LastModified` in milliseconds, `none`
  inside when the date is invalid. -/
  head : Except JsError (Option Int)
  /-- The creation time of the cached package file; `none` when there is no file. -/
  cacheBirthtime : Option Int
  /-- The answer of `getObject`: the body. -/
  get : Except JsError String
  /-- Whether opening or writing the cache file throws. -/
  writeFails : Bool
  /-- The answer of `decompress`. -/
  unpack : Except JsError Unit
  /-- What `fs.statSync(pathToTests).isDirectory()` returns in `TestExecutor.open`,
  `none` when it throws. -/
  testsStat : String → Option Bool
  /-- The object `require(pathToOpen)` returns, `none` when it throws. -/
  requireJson : String → Option Manifest
  /-- How the spawned runner ends. -/
  runner : RunnerExit
  /-- Whether the write stream of the archive closes. -/
  archiveCloses : Bool
  /-- The answer of `fs.existsSync(src)` in `uploadTestResult`. -/
  resultsExist : String → Bool
  /-- The answer of `readDir(src)`: each file with its path relative to `src`. -/
  listing : Except JsError (List (String × String))
  /-- The answer of `putObject` for a key. -/
  put : String → Except JsError Unit

/-! ## `src/src/executor.js` -/

/-- The manifest file looked for inside a tests directory. -/
def CONFIGURATION_FILE : String := "zemog.json"

/-- The stdout signatures of internal failures of the runner. -/
def EXECUTION_EXCEPTIONS : List String :=
  ["java.util.concurrent.RejectedExecutionException"]

/-- The characters a `.` of a regular expression does not match. -/
def isLineTerminator (c : Char) : Bool :=
  c = '\n' || c = '\r' || c.toNat = 0x2028 || c.toNat = 0x2029

/-- The characters `\s` of a regular expression matches. -/
def isWhiteSpace (c : Char) : Bool :=
  c.toNat ∈ [0x09, 0x0A, 0x0B, 0x0C, 0x0D, 0x20, 0xA0, 0x1680, 0x2028, 0x2029, 0x202F,
    0x205F, 0x3000, 0xFEFF] || (0x2000 ≤ c.toNat && c.toNat ≤ 0x200A)

/-- An element of the pattern built from one signature: the character `.` of the
signature is the wildcard of the regular expression, any other character of it
(letters only, see `EXECUTION_EXCEPTIONS`) stands for itself. -/
inductive Atom where
  | anyChar
  | literal (c : Char)
  deriving DecidableEq, Repr

/-- The pattern `new RegExp` builds from the text of one signature. -/
def compileSignature (signature : String) : List Atom :=
  signature.data.map fun c => if c = '.' then Atom.anyChar else Atom.literal c

/-- Whether an atom matches a character. The wildcard matches one UTF-16 code unit
that is not a line terminator; a character outside the basic plane is two code
units, of which the second never matches the literal that follows a wildcard. -/
def Atom.accepts : Atom → Char → Bool
  | .anyChar, c => !isLineTerminator c && c.toNat < 0x10000
  | .literal l, c => c = l

/-- Whether the pattern matches at the start of the text. -/
def matchHere : List Atom → List Char → Bool
  | [], _ => true
  | _ :: _, [] => false
  | a :: atoms, c :: cs => a.accepts c && matchHere atoms cs

/-- The `test` of a regular expression without anchors: a match at some position. -/
def regexTest (atoms : List Atom) : List Char → Bool
  | [] => matchHere atoms []
  | c :: cs => matchHere atoms (c :: cs) || regexTest atoms cs

/-- The check `reExecutionExceptionsCheck.test(stdout)`, the pattern being the
alternation of the signatures. -/
def reExecutionExceptionsCheck (stdout : String) : Bool :=
  EXECUTION_EXCEPTIONS.any fun signature => regexTest (compileSignature signature) stdout.data

/-- A match of `/(=\s?)(\.(?:\/|\\))(.*)/`: the text before it, its three groups and
the text after it. -/
structure RelativeMatch where
  before : List Char
  g1 : List Char
  g2 : List Char
  g3 : List Char
  after : List Char
  deriving DecidableEq, Repr

/-- The part `(\.(?:\/|\\))(.*)` at the start of a text, group 1 being matched
already. The greedy `.*` runs up to the first line terminator. -/
def matchDotSlash (g1 : List Char) (s : List Char) : Option RelativeMatch :=
  match s with
  | d :: sl :: tail =>
    if d = '.' ∧ (sl = '/' ∨ sl = '\\') then
      some ⟨[], g1, [d, sl], tail.takeWhile (fun c => !isLineTerminator c),
        tail.dropWhile (fun c => !isLineTerminator c)⟩
    else none
  | _ => none

/-- The whole pattern at the start of a text. The optional `\s` is tried with one
white space first and with none after that. -/
def matchRelativeAt (s : List Char) : Option RelativeMatch :=
  match s with
  | e :: rest =>
    if e = '=' then
      match rest with
      | w :: rest1 =>
        if isWhiteSpace w then
          match matchDotSlash [e, w] rest1 with
          | some m => some m
          | none => matchDotSlash [e] rest
        else matchDotSlash [e] rest
      | [] => none
    else none
  | [] => none

/-- The leftmost match of the pattern in a text. -/
def searchRelative : List Char → Option RelativeMatch
  | [] => none
  | c :: cs =>
    match matchRelativeAt (c :: cs) with
    | some m => some m
    | none =>
      match searchRelative cs with
      | some m => some { m with before := c :: m.before }
      | none => none

/-- The value of a decimal digit. -/
def digitValue (c : Char) : Option Nat :=
  if 48 ≤ c.toNat ∧ c.toNat ≤ 57 then some (c.toNat - 48) else none

/-- The text of capture `n` (counted from 1). -/
def captureText (captures : List (List Char)) (n : Nat) : List Char :=
  (captures.get? (n - 1)).getD []

/-- The reference that follows a `$` of a replacement text (`GetSubstitution` of
`String.prototype.replace`): the text it stands for and the number of characters it
takes after the `$`. `$$` is a dollar sign, `$&` the match, `$` with a backtick or an
apostrophe the text before or after the match, `$n` and `$nn` a capture; `none` when
the `$` stands for itself. -/
def dollarReference (matched before after : List Char) (captures : List (List Char))
    (rest : List Char) : Option (List Char × Nat) :=
  match rest with
  | [] => none
  | d :: rest1 =>
    if d = '$' then some (['$'], 1)
    else if d = '&' then some (matched, 1)
    else if d.toNat = 0x60 then some (before, 1)
    else if d.toNat = 0x27 then some (after, 1)
    else
      match digitValue d with
      | none => none
      | some n1 =>
        let single : Option (List Char × Nat) :=
          if 1 ≤ n1 ∧ n1 ≤ captures.length then some (captureText captures n1, 1) else none
        match rest1 with
        | [] => single
        | d2 :: _ =>
          match digitValue d2 with
          | none => single
          | some n2 =>
            if 1 ≤ 10 * n1 + n2 ∧ 10 * n1 + n2 ≤ captures.length then
              some (captureText captures (10 * n1 + n2), 2)
            else single

/-- The expansion of a replacement text, the first `skip` characters of which belong
to a reference that is expanded already. -/
def expandReplacement (matched before after : List Char) (captures : List (List Char)) :
    Nat → List Char → List Char
  | _, [] => []
  | skip + 1, _ :: rest => expandReplacement matched before after captures skip rest
  | 0, c :: rest =>
    if c ≠ '$' then c :: expandReplacement matched before after captures 0 rest
    else
      match dollarReference matched before after captures rest with
      | none => c :: expandReplacement matched before after captures 0 rest
      | some reference =>
        reference.1 ++ expandReplacement matched before after captures reference.2 rest

/-- The expansion of a replacement text by `String.prototype.replace`. -/
def getSubstitution (matched before after : List Char) (captures : List (List Char))
    (replacement : List Char) : List Char :=
  expandReplacement matched before after captures 0 replacement

/-- The rewrite `open` applies to one launch parameter:
`line.replace(/(=\s?)(\.(?:\/|\\))(.*)/, "$1file:///" + path.join(pathToTests, "$3"))`.
Only the first match is replaced; a line without a match is left as it is. -/
def rewriteLaunchParameter (pathToTests : String) (line : String) : String :=
  let replacement := "$1file:///" ++ pathJoin [pathToTests, "$3"]
  match searchRelative line.data with
  | none => line
  | some m =>
    ⟨m.before ++
      getSubstitution (m.g1 ++ m.g2 ++ m.g3) m.before m.after [m.g1, m.g2, m.g3]
        replacement.data ++ m.after⟩

/-- The static method `File.createFolderIfNeeded(folder, forceDelete)` of
`src/src/file.js`: an existing folder is kept unless `forceDelete` is set, anything
else found at the path is removed, and any file-system error becomes
`FileOperationError`. -/
def File.createFolderIfNeeded (w : World) (folder : String) (forceDelete : Bool) :
    Run Unit :=
  let mkdir : Run Unit :=
    if w.mkdirFails folder then Run.throw .FileOperationError
    else Run.emit (.mkdir folder)
  match w.folderProbe folder with
  | .absent => mkdir
  | .file => (Run.emit (.rimraf folder)).andThen fun _ => mkdir
  | .directory =>
    if forceDelete then (Run.emit (.rimraf folder)).andThen fun _ => mkdir
    else Run.resolve ()

/-- The static method `File.removeTestFiles(src)`: `rimraf.sync(src)`. -/
def File.removeTestFiles (src : String) : Run Unit :=
  Run.emit (.rimraf src)

/-- The names every object inherits from `Object.prototype`; each of them reads as a
function (or, for `__proto__`, as the prototype itself): a truthy value without a
`launchParameters` property. -/
def OBJECT_PROTOTYPE_KEYS : List String :=
  ["constructor", "__proto__", "hasOwnProperty", "isPrototypeOf", "propertyIsEnumerable",
    "toLocaleString", "toString", "valueOf", "__defineGetter__", "__defineSetter__",
    "__lookupGetter__", "__lookupSetter__"]

/-- The value of the property read `this._config[name]`. -/
inductive PropertyValue where
  | undefined
  | own (value : ManifestValue)
  | inherited
  deriving DecidableEq, Repr

/-- The property read `config[name]` on the manifest object: an own property first,
an inherited one after that. -/
def getProperty (config : Manifest) (name : String) : PropertyValue :=
  match config.lookup name with
  | some value => .own value
  | none => if name ∈ OBJECT_PROTOTYPE_KEYS then .inherited else .undefined

/-- Whether a value of the manifest is truthy. -/
def ManifestValue.truthy : ManifestValue → Bool
  | .null => false
  | .primitive t => t
  | .object _ => true

/-- Whether the value of a property read is truthy. -/
def PropertyValue.truthy : PropertyValue → Bool
  | .undefined => false
  | .own value => value.truthy
  | .inherited => true

/-- The property read `value.launchParameters` on a truthy value; `none` is
`undefined`. -/
def PropertyValue.launchParameters : PropertyValue → Option (List String)
  | .own (.object launchParameters) => launchParameters
  | _ => none

/-- The state of a `TestExecutor`. -/
structure TestExecutor where
  _pathToIridium : String
  _globalLaunchParameters : List String
  _config : Manifest
  deriving DecidableEq, Repr

/-- The result `execute` resolves with. -/
structure ExecutionResult where
  tmpTestResultsFolder : String
  code : Option Int
  stdout : String
  stderr : String
  deriving DecidableEq, Repr

/-- The constructor: `_config` starts as the empty object. -/
def TestExecutor.new (config : Config) : TestExecutor :=
  ⟨config.iridiumPath, config.iridiumLaunchParameters, []⟩

/-- The loop of `open` over `Object.keys(this._config)` without `version`: every
value gets its launch parameters (absent: none) rewritten. Reading the property of
`null` throws, and so does, in the strict code of a class body, setting a property on
a number, boolean or string. -/
def TestExecutor.rewriteManifest (pathToTests : String) : Manifest → Except JsError Manifest
  | [] => .ok []
  | (name, value) :: rest =>
    if name = "version" then
      (TestExecutor.rewriteManifest pathToTests rest).map fun rest1 => (name, value) :: rest1
    else
      match value with
      | .null => .error .TypeError
      | .primitive _ => .error .TypeError
      | .object launchParameters =>
        (TestExecutor.rewriteManifest pathToTests rest).map fun rest1 =>
          (name, .object (some ((launchParameters.getD []).map
            (rewriteLaunchParameter pathToTests)))) :: rest1

/-- The method `open(pathToTests)`: the executor with its manifest loaded when the
call returns, or the error thrown. The value for a throw is the error alone: it does
not say what the assignment `this._config = require(pathToOpen)`, which comes before
the check of the legacy shape and before the loop, has left in the executor. -/
def TestExecutor.open (w : World) (self : TestExecutor) (pathToTests : String) :
    Except JsError TestExecutor :=
  match w.testsStat pathToTests with
  | none => .error .ConfigurationParseError
  | some isDirectory =>
    let pathToOpen :=
      if isDirectory then pathJoin [pathToTests, CONFIGURATION_FILE] else pathToTests
    match w.requireJson pathToOpen with
    | none => .error .ConfigurationParseError
    | some config =>
      if (getProperty config "launchParameters").truthy then
        .error .ConfigurationParseError
      else
        (TestExecutor.rewriteManifest pathToTests config).map fun config1 =>
          { self with _config := config1 }

/-- The argument vector `params` of `execute`. -/
def TestExecutor.params (w : World) (self : TestExecutor) (launchParameters : List String) :
    List String :=
  launchParameters ++ self._globalLaunchParameters ++
    ["-jar", pathJoin [w.dirname, "..", self._pathToIridium]]

/-- The method `execute(testName)`. The spread of an `undefined`
`launchParameters` throws a `TypeError`. -/
def TestExecutor.execute (w : World) (self : TestExecutor) (testName : String) : Run ExecutionResult :=
  if testName = "" then Run.throw .AssertionError
  else if ¬ (getProperty self._config testName).truthy then Run.throw .TestNotFound
  else
    match (getProperty self._config testName).launchParameters with
    | none => Run.throw .TypeError
    | some launchParameters =>
      let tmpTestResultsFolder := pathJoin [w.tmpdir, testName ++ "-" ++ w.random]
      (File.createFolderIfNeeded w tmpTestResultsFolder false).andThen fun _ =>
      (Run.emit (.spawn "java" (TestExecutor.params w self launchParameters) tmpTestResultsFolder)).andThen
        fun _ =>
      if w.runner.code ≠ some 0 ∧ reExecutionExceptionsCheck w.runner.stdout then
        Run.throw (.stdoutText w.runner.stdout)
      else
        Run.resolve ⟨tmpTestResultsFolder, w.runner.code, w.runner.stdout, w.runner.stderr⟩

/-! ## `src/src/queue.js` -/

/-- The body of the mocked queue message. -/
def MOCKED_MESSAGE_BODY : String :=
  "\x7b\"test\": \"connectionTest\", \"app\": \"budget-direct\", \"location\": \n" ++
  "\t\t\t\t\t\t\t  \"s3://ag-online-zemog/tests/budget-direct-local-test.zip\", " ++
  "\"notifications\": [\"frontend\", \"infrastructure\"]\x7d"

/-- The method `Queue.retrieveTask()`. Reading `data.Messages[0].Body` on an empty
list throws a `TypeError`. -/
def Queue.retrieveTask (config : Config) (w : World) : Run Task :=
  (Run.ofExcept w.queueUrl).andThen fun queueUrl =>
  (if config.debug.useMockedQueueMessage then
      Run.resolve (ReceiveResponse.mk (some [⟨MOCKED_MESSAGE_BODY, none⟩]))
    else (Run.emit (.receiveMessage queueUrl)).andThen fun _ => Run.ofExcept w.receive).andThen
    fun data =>
  (match data.Messages with
    | none => Run.throw .EmptyQueueError
    | some [] => Run.throw .TypeError
    | some (message :: _) =>
      (if config.debug.doNotDeleteMessagesInQueue then Run.resolve ()
        else
          (Run.emit (.deleteMessage queueUrl message.ReceiptHandle)).andThen fun _ =>
            Run.ofExcept w.delete).andThen fun _ => Run.resolve message).andThen
    fun message =>
  match w.jsonParse message.Body with
  | none => Run.throw .JSONParseError
  | some task => Run.resolve task

/-! ## `src/src/file.js` -/

/-- The replacement `s3path.replace(/(s3:)?\/\//, '')`: the leftmost `s3://` or `//`
is removed. -/
def removeScheme : List Char → List Char
  | [] => []
  | c :: cs =>
    if ['s', '3', ':', '/', '/'].isPrefixOf (c :: cs) then (c :: cs).drop 5
    else if ['/', '/'].isPrefixOf (c :: cs) then (c :: cs).drop 2
    else c :: removeScheme cs

/-- The static method `File.getPathObject(s3path)`. -/
def File.getPathObject (s3path : String) : PathObject :=
  let tmp := splitChar '/' (removeScheme s3path.data)
  ⟨⟨tmp.headD []⟩, ⟨joinChar '/' tmp.tail⟩⟩

/-- The expression `str.split('/').pop()`. -/
def lastSegment (s : String) : String :=
  ⟨(splitChar '/' s.data).getLastD []⟩

/-- The expression `str.replace('.', '-')`. -/
def dotToDash (s : String) : String :=
  ⟨replaceFirstChar '.' '-' s.data⟩

/-- Node's `path.posix.basename` of a string: the last segment, trailing separators
set aside. -/
def basenameOf (p : String) : String :=
  ⟨((splitChar '/' p.data).filter (fun seg => seg ≠ [])).getLastD []⟩

/-- The test `moment(stats.birthtime) >= s3LastModified` on a cached package that
exists; the comparison with an invalid date is false. -/
def File.cacheUpToDate (cacheBirthtime : Option Int) (s3LastModified : Option Int) : Bool :=
  match cacheBirthtime, s3LastModified with
  | some birthtime, some lastModified => decide (birthtime ≥ lastModified)
  | _, _ => false

/-- The callback of `retrieveTestFiles` that receives the answer of `headObject`:
the cached package is kept when its creation time is not before the last-modified
time in the store, and is downloaded and written otherwise. -/
def File.refreshCache (w : World) (src : String) (tmpArchiveFilename : String)
    (s3LastModified : Option Int) : Run Unit :=
  if File.cacheUpToDate w.cacheBirthtime s3LastModified then Run.resolve ()
  else
    ((Run.emit (.getObject (File.getPathObject src))).andThen fun _ =>
      Run.ofExcept w.get).andThen fun body =>
    if w.writeFails then Run.throw .FileOperationError
    else Run.emit (.writeFile tmpArchiveFilename body)

/-- The `.catch` of `retrieveTestFiles`: the errors of the store are renamed, any
other error is wrapped in a plain `Error`. -/
def File.renameFailure (err : JsError) : Run String :=
  match err with
  | .awsError code =>
    if code ∈ ["Forbidden"] then Run.throw .TestNotFound
    else if code ∈ ["NoSuchKey", "NotFound"] then Run.throw .TestNotFound
    else Run.throw .Error
  | _ => Run.throw .Error

/-- The promise chain `retrieveTestFiles` returns, from `headObject` to the
`.catch`. -/
def File.fetchAndUnpack (w : World) (src : String) (tmpArchiveFilename : String)
    (tmpTestFolder : String) : Run String :=
  (((((Run.emit (.headObject (File.getPathObject src))).andThen fun _ =>
          Run.ofExcept w.head).andThen
        (File.refreshCache w src tmpArchiveFilename)).andThen fun _ =>
      (Run.emit (.decompress tmpArchiveFilename tmpTestFolder)).andThen fun _ =>
        Run.ofExcept w.unpack).andThen fun _ =>
    Run.resolve tmpTestFolder).catchWith File.renameFailure

/-- The folder `this._tmpRootFolder` of `File`. -/
def File.tmpRootFolder (w : World) : String :=
  pathJoin [w.tmpdir, "zemog"]

/-- The file `tmpArchiveFilename` of `retrieveTestFiles`: the cached package. -/
def File.cacheFile (w : World) (src : String) : String :=
  pathJoin [File.tmpRootFolder w, lastSegment src]

/-- The folder `tmpTestFolder` of `retrieveTestFiles`: the staging directory. -/
def File.stagingFolder (w : World) (src : String) : String :=
  pathJoin [File.tmpRootFolder w, dotToDash (lastSegment src)] ++ "-" ++ toString w.now

/-- The method `File.retrieveTestFiles(src)`. -/
def File.retrieveTestFiles (w : World) (src : String) : Run String :=
  if src = "" then Run.throw .AssertionError
  else
    (File.createFolderIfNeeded w (File.tmpRootFolder w) false).andThen fun _ =>
    (File.createFolderIfNeeded w (File.stagingFolder w src) true).andThen fun _ =>
    File.fetchAndUnpack w src (File.cacheFile w src) (File.stagingFolder w src)

/-- The object `archiveTestResult` resolves with. -/
structure ResultArchive where
  archiveName : String
  src : String
  tmpArchiveFilename : String
  deriving DecidableEq, Repr

/-- The values the variable `testResultArchiveFile` of `Application.start` can hold
and `path.basename` and `uploadTestResult` can be called with. -/
inductive JsValue where
  | undefined
  | string (s : String)
  | object (archive : ResultArchive)
  deriving DecidableEq, Repr

/-- Node's `path.basename(path)`: a `TypeError` is thrown if `path` is not a
string. -/
def pathBasename : JsValue → Except JsError String
  | .string s => .ok (basenameOf s)
  | _ => .error .TypeError

/-- The method `File.archiveTestResult(archiveName, src)`: the promise resolves when
the write stream closes; nothing else settles it. -/
def File.archiveTestResult (w : World) (archiveName : String) (src : String) :
    Run ResultArchive :=
  if archiveName = "" ∨ src = "" then Run.throw .AssertionError
  else
    let tmpArchiveFilename := pathJoin [w.tmpdir, archiveName ++ ".zip"]
    (Run.emit (.createWriteStream tmpArchiveFilename)).andThen fun _ =>
      if w.archiveCloses then Run.resolve ⟨archiveName, src, tmpArchiveFilename⟩
      else Run.never

/-- The promise `Promise.all(promises)` of calls that were all issued: rejected with
the first rejection, resolved when all are. -/
def promiseAll (promises : List (Run Unit)) : Run Unit :=
  ⟨promises.flatMap Run.trace,
    match promises.find? (fun p => p.result ≠ .resolved ()) with
    | some p => p.result
    | none => .resolved ()⟩

/-- One `this._s3.putObject(params).promise()`. -/
def putObject (w : World) (params : PutParams) : Run Unit :=
  (Run.emit (.putObject params)).andThen fun _ => Run.ofExcept (w.put params.Key)

/-- The promise chain inside `uploadTestResult`, from `readDir(src)` to the
`.catch` that rethrows. It is not returned to anyone. -/
def File.uploadChain (config : Config) (w : World) (archive : ResultArchive)
    (folderToUpload : String) : Run Unit :=
  ((Run.emit (.readDir archive.src)).andThen fun _ => Run.ofExcept w.listing).andThen
    fun files =>
  (((promiseAll (files.map fun file =>
        putObject w ⟨config.testResultBucket, folderToUpload ++ "/html/" ++ file.2, file.1,
          w.isoExpiry config.daysToKeepTestResult⟩)).andThen fun _ =>
      putObject w ⟨config.testResultBucket,
        folderToUpload ++ "/" ++ basenameOf archive.tmpArchiveFilename,
        archive.tmpArchiveFilename, w.isoExpiry config.daysToKeepTestResult⟩).andThen
      fun _ => Run.resolve ()).catchWith fun err =>
    if err = .awsError "NoSuchKey" then Run.throw .TestResultNotUploaded
    else Run.throw .Error

/-- The method `File.uploadTestResult({archiveName, src, tmpArchiveFilename})`.
Destructuring `undefined` throws a `TypeError`; a string has none of the three
properties. The promise built with `new Promise(resolve => ...)` is settled by the
call `resolve(folderToUpload)` and by nothing else; `none` is the `undefined`
returned when `src` does not exist. -/
def File.uploadTestResult (config : Config) (w : World) : JsValue → Run (Option String)
  | .undefined => Run.throw .TypeError
  | .string _ => Run.resolve none
  | .object archive =>
    if w.resultsExist archive.src then
      let folderToUpload :=
        config.testResultKey ++ archive.archiveName ++ "-" ++
          String.mk (replaceAllChar ':' '-' w.isoNow.data)
      let chain := File.uploadChain config w archive folderToUpload
      ⟨chain.trace,
        match chain.result with
        | .resolved _ => .resolved (some folderToUpload)
        | _ => .pending⟩
    else Run.resolve none

/-! ## `src/src/metrics.js` -/

/-- The name of the counter of executed tests. -/
def TEST_EXECUTED : String := "ExecutedTests"
/-- The name of the counter of failed tests. -/
def TEST_FAILED : String := "FailedTests"
/-- The name of the counter of successful tests. -/
def TEST_SUCCESSFUL : String := "SuccessfulTests"
/-- The name of the counter of exceptions. -/
def TEST_EXCEPTION : String := "TestExceptions"

/-- The state of a `Metrics` object. -/
structure Metrics where
  _instanceId : String
  _appName : String
  deriving DecidableEq, Repr

/-- The method `put(metricName, metricValue)`. -/
def Metrics.put (self : Metrics) (metricName : String) (metricValue : Int) : Run Unit :=
  let metric : MetricDatum := ⟨metricName, "Count", metricValue, none⟩
  Run.emit (.putMetricData ⟨"Zemog",
    [metric,
      { metric with Dimensions := some [("InstanceId", self._instanceId)] },
      { metric with Dimensions := some [("ApplicationName", self._appName)] }]⟩)

/-- The method `putExecuted()`. -/
def Metrics.putExecuted (self : Metrics) : Run Unit := self.put TEST_EXECUTED 1
/-- The method `putFailed()`. -/
def Metrics.putFailed (self : Metrics) : Run Unit := self.put TEST_FAILED 1
/-- The method `putSuccessful()`. -/
def Metrics.putSuccessful (self : Metrics) : Run Unit := self.put TEST_SUCCESSFUL 1
/-- The method `putException()`. -/
def Metrics.putException (self : Metrics) : Run Unit := self.put TEST_EXCEPTION 1

/-! ## `src/src/notifications` and `src/src/app.js` -/

/-- The constructor of `VictorOps`: `victorOps.url` is required. -/
def VictorOps.new (victorOps : VictorOpsConfig) : Except JsError VictorOpsConfig :=
  if victorOps.url = "" then .error .AssertionError else .ok victorOps

/-- The constructor of `Clickatell`: `clickatell.authorizationToken` and
`clickatell.recipients` are required. -/
def Clickatell.new (clickatell : ClickatellConfig) : Except JsError ClickatellConfig :=
  if clickatell.authorizationToken = "" then .error .AssertionError
  else if clickatell.recipients = none then .error .AssertionError
  else .ok clickatell

/-- The statement
`(new Channel(notification)).sendNotification(appName, testName, path.basename(testResultArchiveFile))`:
the channel object is built first, the arguments are evaluated after that, and the
call is made last. -/
def notify (channel : Channel) (built : Except JsError Unit) (code : String)
    (appName : String) (testName : String) (testResultArchiveFile : JsValue) : Run Unit :=
  (Run.ofExcept built).andThen fun _ =>
  (Run.ofExcept (pathBasename testResultArchiveFile)).andThen fun src =>
  Run.emit (.sendNotification channel code appName testName src)

/-- The body of the `forEach` callback of `Application.start` for one notification
code. A code without an entry in the configuration is skipped; so is, to the same
effect, a code that only names an inherited property, which has no channels. -/
def Application.notifyCode (config : Config) (appName : String) (testName : String)
    (testResultArchiveFile : JsValue) (notificationCode : String) : Run Unit :=
  match config.notifications.lookup notificationCode with
  | none => Run.resolve ()
  | some notification =>
    (match notification.victorOps with
      | some victorOps =>
        if victorOps.isEnabled then
          notify .victorOps ((VictorOps.new victorOps).map fun _ => ()) notificationCode
            appName testName testResultArchiveFile
        else Run.resolve ()
      | none => Run.resolve ()).andThen fun _ =>
    match notification.clickatell with
    | some clickatell =>
      if clickatell.isEnabled then
        notify .clickatell ((Clickatell.new clickatell).map fun _ => ()) notificationCode
          appName testName testResultArchiveFile
      else Run.resolve ()
    | none => Run.resolve ()

/-- The loop `testTask.notifications.forEach(...)`: a throw ends it. -/
def Application.notifyAll (config : Config) (appName : String) (testName : String)
    (testResultArchiveFile : JsValue) : List String → Run Unit
  | [] => Run.resolve ()
  | notificationCode :: rest =>
    (Application.notifyCode config appName testName testResultArchiveFile
      notificationCode).andThen fun _ =>
    Application.notifyAll config appName testName testResultArchiveFile rest

/-- The expression `task.app || 'unknown'`. -/
def appNameOf (task : Task) : String :=
  match task.app with
  | some app => if app = "" then "unknown" else app
  | none => "unknown"

/-- The branch of the callback of `Application.start` that receives the execution
result: the results are archived when the exit code is not `0`, and removed
otherwise, in which case the callback returns `undefined`. -/
def Application.archiveOrDiscard (w : World) (metrics : Metrics) (task : Task)
    (data : ExecutionResult) : Run JsValue :=
  if data.code ≠ some 0 then
    metrics.putFailed.andThen fun _ =>
    (File.archiveTestResult w (dotToDash (lastSegment task.location))
      data.tmpTestResultsFolder).andThen fun archive => Run.resolve (.object archive)
  else
    metrics.putSuccessful.andThen fun _ =>
    (File.removeTestFiles data.tmpTestResultsFolder).andThen fun _ =>
    Run.resolve .undefined

/-- The callback of `Application.start` that receives the execution result: the
staging directory is removed, and the results are archived or discarded. -/
def Application.handleResult (w : World) (metrics : Metrics) (task : Task)
    (tmpFolder : String) (data : ExecutionResult) : Run JsValue :=
  (File.removeTestFiles tmpFolder).andThen fun _ =>
  Application.archiveOrDiscard w metrics task data

/-- The callback of `Application.start` that receives the upload locator: the
notifications go out when there is a locator (a non-empty string) and the task lists
notification codes, and the results directory is removed after that. -/
def Application.handleUpload (config : Config) (task : Task)
    (tmpTestResultsFolder : String) (testResultArchiveFile : JsValue)
    (data : Option String) : Run Unit :=
  (match data, task.notifications with
    | some locator, some notifications =>
      if locator ≠ "" then
        Application.notifyAll config (appNameOf task) task.test testResultArchiveFile
          notifications
      else Run.resolve ()
    | _, _ => Run.resolve ()).andThen fun _ =>
  File.removeTestFiles tmpTestResultsFolder

/-- The callbacks of `Application.start` that follow the execution: the handling of
the result, the upload, and the handling of the upload. -/
def Application.report (config : Config) (w : World) (metrics : Metrics) (task : Task)
    (tmpFolder : String) (data : ExecutionResult) : Run Unit :=
  (Application.handleResult w metrics task tmpFolder data).andThen
    fun testResultArchiveFile =>
  (File.uploadTestResult config w testResultArchiveFile).andThen fun locator =>
  Application.handleUpload config task data.tmpTestResultsFolder testResultArchiveFile
    locator

/-- The callbacks of `Application.start` that follow the receipt of a task, up to
the `.catch`. -/
def Application.process (config : Config) (w : World) (task : Task) : Run Unit :=
  let metrics : Metrics := ⟨w.instanceId, appNameOf task⟩
  (File.retrieveTestFiles w task.location).andThen fun tmpFolder =>
  metrics.putExecuted.andThen fun _ =>
  (Run.ofExcept ((TestExecutor.new config).open w tmpFolder)).andThen fun testExecutor =>
  (testExecutor.execute w task.test).andThen fun data =>
  Application.report config w metrics task tmpFolder data

/-- The value of `metrics.appName` when the failure handler runs: the first
callback has set it if the queue yielded a task. -/
def Application.appNameAtCatch (config : Config) (w : World) : String :=
  match (Queue.retrieveTask config w).result with
  | .resolved task => appNameOf task
  | _ => "unknown"

/-- The `.catch` of `Application.start`: an empty queue is only logged, anything
else counts as an exception. -/
def Application.handleFailure (metrics : Metrics) (err : JsError) : Run Unit :=
  if err = .EmptyQueueError then Run.resolve ()
  else metrics.putException

/-- The method `Application.start()`. -/
def Application.start (config : Config) (w : World) : Run Unit :=
  ((Queue.retrieveTask config w).andThen (Application.process config w)).catchWith
    (Application.handleFailure ⟨w.instanceId, Application.appNameAtCatch config w⟩)

/-! ## Observations on a trace -/

/-- The calls of the queue consumer, the package stager and the process runner. -/
def Effect.isPreparation : Effect → Bool
  | .receiveMessage _ => true
  | .deleteMessage _ _ => true
  | .mkdir _ => true
  | .rimraf _ => true
  | .headObject _ => true
  | .getObject _ => true
  | .writeFile _ _ => true
  | .decompress _ _ => true
  | .spawn _ _ _ => true
  | _ => false

/-- The calls of the callbacks that report, notifications apart. -/
def Effect.isReport : Effect → Bool
  | .rimraf _ => true
  | .putMetricData _ => true
  | .createWriteStream _ => true
  | .readDir _ => true
  | .putObject _ => true
  | _ => false

/-- The names of the counters emitted, in order. -/
def metricNames (trace : List Effect) : List String :=
  trace.filterMap fun e =>
    match e with
    | .putMetricData params => (params.MetricData.head?).map MetricDatum.MetricName
    | _ => none

/-- The paths removed with `rimraf`, in order. -/
def removedPaths (trace : List Effect) : List String :=
  trace.filterMap fun e =>
    match e with
    | .rimraf path => some path
    | _ => none

/-- The archive files created, in order. -/
def createdArchives (trace : List Effect) : List String :=
  trace.filterMap fun e =>
    match e with
    | .createWriteStream path => some path
    | _ => none

/-- The upload calls, in order. -/
def uploadCalls (trace : List Effect) : List PutParams :=
  trace.filterMap fun e =>
    match e with
    | .putObject params => some params
    | _ => none

/-- The notifications sent, in order, each by channel and notification code. -/
def notificationsSent (trace : List Effect) : List (Channel × String) :=
  trace.filterMap fun e =>
    match e with
    | .sendNotification channel code _ _ _ => some (channel, code)
    | _ => none

/-- The download calls, in order. -/
def downloadCalls (trace : List Effect) : List PathObject :=
  trace.filterMap fun e =>
    match e with
    | .getObject target => some target
    | _ => none

/-- The delete calls on the queue, in order. -/
def deleteCalls (trace : List Effect) : List (Option String) :=
  trace.filterMap fun e =>
    match e with
    | .deleteMessage _ receiptHandle => some receiptHandle
    | _ => none

/-- The processes spawned, in order: the command, its argument vector and its working
directory. -/
def spawnCalls (trace : List Effect) : List (String × List String × String) :=
  trace.filterMap fun e =>
    match e with
    | .spawn command args cwd => some (command, args, cwd)
    | _ => none

/-- Whether `rimraf.sync(removed)` removes `path`: the path itself and everything
below it. -/
def covers (removed : String) (path : String) : Bool :=
  removed = path || (removed.data ++ ['/']).isPrefixOf path.data

/-- Whether the directory `path` is there after the effects of a trace, given whether
it was there before: `mkdir` and `decompress` make it, `rimraf` of it or of a
directory above it removes it. -/
def directoryPresent (path : String) : Bool → List Effect → Bool
  | present, [] => present
  | present, .mkdir folder :: rest =>
    directoryPresent path (if folder = path then true else present) rest
  | present, .decompress _ dest :: rest =>
    directoryPresent path (if dest = path then true else present) rest
  | present, .rimraf removed :: rest =>
    directoryPresent path (if covers removed path then false else present) rest
  | present, _ :: rest => directoryPresent path present rest

/-- Whether the file `path` is there after the effects of a trace, given whether it
was there before: a write stream and a write make it, `rimraf` of it or of a
directory above it removes it. -/
def filePresent (path : String) : Bool → List Effect → Bool
  | present, [] => present
  | present, .createWriteStream file :: rest =>
    filePresent path (if file = path then true else present) rest
  | present, .writeFile file _ :: rest =>
    filePresent path (if file = path then true else present) rest
  | present, .rimraf removed :: rest =>
    filePresent path (if covers removed path then false else present) rest
  | present, _ :: rest => filePresent path present rest

/-! ## Example runs -/

/-- A configuration with one notification code, `infra`, whose VictorOps channel is
enabled and whose Clickatell channel is disabled. -/
def exampleConfig : Config :=
  { queueName := "zemog"
    iridiumPath := "lib/iridium.jar"
    iridiumLaunchParameters := ["-Xmx512m"]
    notifications :=
      [("infra", ⟨some ⟨true, "https://alert.example/hook"⟩, some ⟨false, "token", some ["+61"]⟩⟩)]
    testResultBucket := "zemog-bucket"
    testResultKey := "tests/result/"
    daysToKeepTestResult := 7
    debug := ⟨false, false⟩ }

/-- A task that asks for the notification code `infra`. -/
def exampleTask : Task :=
  ⟨"connectionTest", some "demo", "s3://bucket/connectionTest.zip", some ["infra"]⟩

/-- The manifest of the example package. -/
def exampleManifest : Manifest :=
  [("version", .primitive true), ("connectionTest", .object (some ["-Dfile=./data/x.json"]))]

/-- A world in which every call succeeds and the runner exits with code `0`. -/
def successWorld : World :=
  { tmpdir := "/tmp"
    dirname := "/opt/zemog/src"
    now := 1700000000000
    isoNow := "2023-11-14T22:13:20.000Z"
    isoExpiry := fun _ => "2023-11-21T22:13:20.000Z"
    random := "0.5"
    instanceId := "Local"
    folderProbe := fun _ => .absent
    mkdirFails := fun _ => false
    queueUrl := .ok "https://sqs.example/zemog"
    receive := .ok ⟨some [⟨"body", some "handle"⟩]⟩
    delete := .ok ()
    jsonParse := fun _ => some exampleTask
    head := .ok (some 100)
    cacheBirthtime := none
    get := .ok "package"
    writeFails := false
    unpack := .ok ()
    testsStat := fun _ => some true
    requireJson := fun _ => some exampleManifest
    runner := ⟨some 0, "done", ""⟩
    archiveCloses := true
    resultsExist := fun _ => true
    listing := .ok [("/tmp/connectionTest-0.5/index.html", "index.html")]
    put := fun _ => .ok () }

/-- The staging directory of the example runs. -/
def exampleStaging : String := "/tmp/zemog/connectionTest-zip-1700000000000"

/-- The results directory of the example runs. -/
def exampleResults : String := "/tmp/connectionTest-0.5"

/-- The archive file of the example runs. -/
def exampleArchive : ResultArchive :=
  ⟨"connectionTest-zip", exampleResults, "/tmp/connectionTest-zip.zip"⟩

/-- The executor of the example runs once `open` has loaded the manifest. -/
def exampleExecutor : TestExecutor :=
  ⟨"lib/iridium.jar", ["-Xmx512m"],
    [("version", .primitive true),
      ("connectionTest", .object (some
        ["-Dfile=file:////tmp/zemog/connectionTest-zip-1700000000000/data/x.json"]))]⟩

/-- The world of a failing test: the runner exits with code `1`. -/
def failureWorld : World :=
  { successWorld with runner := ⟨some 1, "assertion failed", ""⟩ }

/-- The world of a failing test whose upload is refused by the store. -/
def uploadRefusedWorld : World :=
  { failureWorld with put := fun _ => .error (.awsError "NoSuchKey") }

/-- The world of a failing test whose task lists no notification codes. -/
def quietFailureWorld : World :=
  { failureWorld with jsonParse := fun _ => some { exampleTask with notifications := none } }

/-- The world of a package whose manifest cannot be read. -/
def brokenManifestWorld : World :=
  { successWorld with requireJson := fun _ => none }

/-- The world of a runner that exits with code `1` and prints the class name of the
signature in the internal form of the virtual machine, with slashes for dots. -/
def lookalikeWorld : World :=
  { successWorld with runner := ⟨some 1, "java/util/concurrent/RejectedExecutionException", ""⟩ }

/-- The world of a queue that answers with an empty list of messages. -/
def emptyListWorld : World :=
  { successWorld with receive := .ok ⟨some []⟩ }

/-- The world of a queue that answers without a `Messages` field. -/
def idleWorld : World :=
  { successWorld with receive := .ok ⟨none⟩ }

/-- The world of a cached package that is older than the copy in the store. -/
def staleWorld : World :=
  { successWorld with cacheBirthtime := some 50 }

/-- The world of a package whose manifest has the legacy shape: a top-level
`launchParameters` array. -/
def legacyWorld : World :=
  { successWorld with
    requireJson := fun _ => some [("launchParameters", .object (some ["-Dfile=./data/x.json"]))] }

/-- The world of a package whose manifest has a top-level `launchParameters` key with
the value `null`. -/
def nullLegacyWorld : World :=
  { successWorld with
    requireJson := fun _ =>
      some [("launchParameters", .null), ("connectionTest", .object (some []))] }

end Zemog

namespace Zemog

/-! ## Promise chains -/

namespace Run

variable {α β : Type}

@[simp] theorem trace_resolve (value : α) : (resolve value).trace = [] := rfl
@[simp] theorem result_resolve (value : α) : (resolve value).result = .resolved value := rfl
@[simp] theorem trace_throw (reason : JsError) : (throw reason : Run α).trace = [] := rfl
@[simp] theorem result_throw (reason : JsError) :
    (throw reason : Run α).result = .rejected reason := rfl
@[simp] theorem trace_never : (never : Run α).trace = [] := rfl
@[simp] theorem result_never : (never : Run α).result = .pending := rfl
@[simp] theorem trace_emit (e : Effect) : (emit e).trace = [e] := rfl
@[simp] theorem result_emit (e : Effect) : (emit e).result = .resolved () := rfl

@[simp] theorem trace_ofExcept (x : Except JsError α) : (ofExcept x).trace = [] := by
  cases x <;> rfl

@[simp] theorem result_ofExcept_ok (value : α) :
    (ofExcept (.ok value)).result = .resolved value := rfl

@[simp] theorem result_ofExcept_error (reason : JsError) :
    (ofExcept (.error reason : Except JsError α)).result = .rejected reason := rfl

theorem andThen_resolved {p : Run α} {value : α} (f : α → Run β)
    (h : p.result = .resolved value) :
    p.andThen f = ⟨p.trace ++ (f value).trace, (f value).result⟩ := by
  simp [andThen, h]

theorem andThen_rejected {p : Run α} {reason : JsError} (f : α → Run β)
    (h : p.result = .rejected reason) : p.andThen f = ⟨p.trace, .rejected reason⟩ := by
  simp [andThen, h]

theorem andThen_pending {p : Run α} (f : α → Run β) (h : p.result = .pending) :
    p.andThen f = ⟨p.trace, .pending⟩ := by
  simp [andThen, h]

theorem catchWith_resolved {p : Run α} {value : α} (handler : JsError → Run α)
    (h : p.result = .resolved value) : p.catchWith handler = ⟨p.trace, .resolved value⟩ := by
  simp [catchWith, h]

theorem catchWith_rejected {p : Run α} {reason : JsError} (handler : JsError → Run α)
    (h : p.result = .rejected reason) :
    p.catchWith handler = ⟨p.trace ++ (handler reason).trace, (handler reason).result⟩ := by
  simp [catchWith, h]

theorem catchWith_pending {p : Run α} (handler : JsError → Run α) (h : p.result = .pending) :
    p.catchWith handler = ⟨p.trace, .pending⟩ := by
  simp [catchWith, h]

/-- A property of every effect of a promise and of every effect of its callback, at
the value the promise resolves with, holds of every effect of the chain. -/
theorem forall_andThen_resolved {P : Effect → Prop} {p : Run α} {f : α → Run β}
    (hp : ∀ e ∈ p.trace, P e)
    (hf : ∀ value, p.result = .resolved value → ∀ e ∈ (f value).trace, P e) :
    ∀ e ∈ (p.andThen f).trace, P e := by
  intro e he
  unfold andThen at he
  split at he
  · rename_i value hvalue
    rcases List.mem_append.mp he with h | h
    · exact hp e h
    · exact hf value hvalue e h
  · exact hp e he
  · exact hp e he

/-- A property of every effect of a promise and of every effect of its callback holds
of every effect of the chain. -/
theorem forall_andThen {P : Effect → Prop} {p : Run α} {f : α → Run β}
    (hp : ∀ e ∈ p.trace, P e) (hf : ∀ value, ∀ e ∈ (f value).trace, P e) :
    ∀ e ∈ (p.andThen f).trace, P e :=
  forall_andThen_resolved hp fun value _ => hf value

/-- Chained callbacks can be nested. -/
theorem andThen_assoc {γ : Type} (p : Run α) (f : α → Run β) (g : β → Run γ) :
    (p.andThen f).andThen g = p.andThen fun value => (f value).andThen g := by
  unfold andThen
  cases hp : p.result with
  | resolved value =>
    dsimp only
    cases hf : (f value).result <;> simp
  | rejected reason => rfl
  | pending => rfl

/-- The same for a `.catch`. -/
theorem forall_catchWith {P : Effect → Prop} {p : Run α} {handler : JsError → Run α}
    (hp : ∀ e ∈ p.trace, P e) (hh : ∀ reason, ∀ e ∈ (handler reason).trace, P e) :
    ∀ e ∈ (p.catchWith handler).trace, P e := by
  intro e he
  unfold catchWith at he
  split at he
  · exact hp e he
  · rcases List.mem_append.mp he with h | h
    · exact hp e h
    · exact hh _ e h
  · exact hp e he

theorem forall_resolve {P : Effect → Prop} (value : α) :
    ∀ e ∈ (resolve value).trace, P e := by simp

theorem forall_throw {P : Effect → Prop} (reason : JsError) :
    ∀ e ∈ (throw reason : Run α).trace, P e := by simp

theorem forall_never {P : Effect → Prop} : ∀ e ∈ (never : Run α).trace, P e := by simp

theorem forall_ofExcept {P : Effect → Prop} (x : Except JsError α) :
    ∀ e ∈ (ofExcept x).trace, P e := by simp

theorem forall_emit {P : Effect → Prop} {e : Effect} (h : P e) :
    ∀ e1 ∈ (emit e).trace, P e1 := by simp [h]

end Run

/-! ## The queue -/

/-- The queue consumer issues no call but `receiveMessage` and `deleteMessage`. -/
theorem queue_effects (config : Config) (w : World) :
    ∀ e ∈ (Queue.retrieveTask config w).trace,
      (∃ url, e = .receiveMessage url) ∨ ∃ url handle, e = .deleteMessage url handle := by
  unfold Queue.retrieveTask
  refine Run.forall_andThen (Run.forall_ofExcept _) fun queueUrl => ?_
  refine Run.forall_andThen ?_ fun data => ?_
  · split
    · exact Run.forall_resolve _
    · exact Run.forall_andThen (Run.forall_emit (Or.inl ⟨_, rfl⟩)) fun _ => Run.forall_ofExcept _
  · refine Run.forall_andThen ?_ fun message => ?_
    · split
      · exact Run.forall_throw _
      · exact Run.forall_throw _
      · refine Run.forall_andThen ?_ fun _ => Run.forall_resolve _
        split
        · exact Run.forall_resolve _
        · exact Run.forall_andThen (Run.forall_emit (Or.inr ⟨_, _, rfl⟩)) fun _ =>
            Run.forall_ofExcept _
    · split
      · exact Run.forall_throw _
      · exact Run.forall_resolve _

/-- C9 (as amended): in normal mode, a receive response without a `Messages` field
makes `Queue.retrieveTask` fail with `EmptyQueueError`, and a response that carries
no message, the field being absent or an empty list, leads to no delete call. -/
theorem retrieveTask_without_message (config : Config) (w : World) (queueUrl : String)
    (response : ReceiveResponse)
    (hmode : config.debug.useMockedQueueMessage = false)
    (hurl : w.queueUrl = .ok queueUrl)
    (hreceive : w.receive = .ok response)
    (hnone : response.Messages = none ∨ response.Messages = some []) :
    deleteCalls (Queue.retrieveTask config w).trace = [] ∧
      (response.Messages = none →
        (Queue.retrieveTask config w).result = .rejected .EmptyQueueError) := by
  rcases hnone with h | h <;>
    simp [Queue.retrieveTask, Run.andThen, Run.ofExcept, Run.emit, Run.resolve, Run.throw,
      hmode, hurl, hreceive, h, deleteCalls]

/-- The amended C9 at a queue that answers without a `Messages` field. -/
theorem retrieveTask_without_message_witness :
    exampleConfig.debug.useMockedQueueMessage = false ∧
      idleWorld.queueUrl = .ok "https://sqs.example/zemog" ∧
      idleWorld.receive = .ok ⟨none⟩ ∧
      deleteCalls (Queue.retrieveTask exampleConfig idleWorld).trace = [] ∧
      ((ReceiveResponse.mk none).Messages = none →
        (Queue.retrieveTask exampleConfig idleWorld).result = .rejected .EmptyQueueError) :=
  ⟨rfl, rfl, rfl,
    retrieveTask_without_message exampleConfig idleWorld "https://sqs.example/zemog" ⟨none⟩
      rfl rfl rfl (Or.inl rfl)⟩

/-- C9 fails as stated: a receive response whose `Messages` is an empty list makes
`Queue.retrieveTask` fail with a `TypeError`, not with `EmptyQueueError`. -/
theorem retrieveTask_empty_list_not_EmptyQueueError :
    emptyListWorld.receive = .ok ⟨some []⟩ ∧
      exampleConfig.debug.useMockedQueueMessage = false ∧
      (Queue.retrieveTask exampleConfig emptyListWorld).result = .rejected .TypeError ∧
      (Queue.retrieveTask exampleConfig emptyListWorld).result ≠ .rejected .EmptyQueueError := by
  decide!

/-! ## The process runner -/

/-- An atom built from a character of a signature matches that character. -/
theorem compiled_atom_accepts (c : Char) :
    (if c = '.' then Atom.anyChar else Atom.literal c).accepts c = true := by
  by_cases h : c = '.'
  · subst h
    decide
  · simp [h, Atom.accepts]

/-- The pattern built from a text matches at the start of that text. -/
theorem matchHere_compiled (signature rest : List Char) :
    matchHere (signature.map fun c => if c = '.' then Atom.anyChar else Atom.literal c)
      (signature ++ rest) = true := by
  induction signature with
  | nil => cases rest <;> rfl
  | cons c cs ih =>
    rw [List.map_cons, List.cons_append, matchHere, compiled_atom_accepts, ih]
    rfl

/-- A match at the start of a later stretch is a match of the search. -/
theorem regexTest_append (atoms : List Atom) (before s : List Char)
    (h : matchHere atoms s = true) : regexTest atoms (before ++ s) = true := by
  induction before with
  | nil =>
    cases s with
    | nil => simpa [regexTest] using h
    | cons c cs => simp [regexTest, h]
  | cons c cs ih => simp [regexTest, ih]

/-- The half of C3 that holds: a stdout that contains the signature passes the check
of `execute`. -/
theorem reExecutionExceptionsCheck_of_contains (stdout : String)
    (h : "java.util.concurrent.RejectedExecutionException".data <:+: stdout.data) :
    reExecutionExceptionsCheck stdout = true := by
  obtain ⟨before, after, hsplit⟩ := h
  simp only [reExecutionExceptionsCheck, EXECUTION_EXCEPTIONS, List.any_cons, List.any_nil,
    Bool.or_false, compileSignature]
  rw [← hsplit, List.append_assoc]
  exact regexTest_append _ _ _ (matchHere_compiled _ _)

/-- C3, at an input where the code departs from it: the runner exits with code `1` and
prints `java/util/concurrent/RejectedExecutionException`, which does not contain the
signature `java.util.concurrent.RejectedExecutionException`; `TestExecutor.execute`
rejects all the same, because the dots of the signature are wildcards of the regular
expression. -/
theorem execute_rejects_lookalike_stdout :
    lookalikeWorld.runner.code = some 1 ∧
      ¬ ("java.util.concurrent.RejectedExecutionException".data <:+:
          lookalikeWorld.runner.stdout.data) ∧
      (exampleExecutor.execute lookalikeWorld "connectionTest").result =
        .rejected (.stdoutText "java/util/concurrent/RejectedExecutionException") := by
  decide!

/-- The part of C10 that holds: a non-empty test name that is neither a key of the
manifest nor the name of an inherited property makes `execute` fail with
`TestNotFound`, before any call is issued. -/
theorem execute_unknown_name (w : World) (self : TestExecutor) (testName : String)
    (hname : testName ≠ "") (hkey : self._config.lookup testName = none)
    (hown : testName ∉ OBJECT_PROTOTYPE_KEYS) :
    self.execute w testName = ⟨[], .rejected .TestNotFound⟩ := by
  simp [TestExecutor.execute, hname, getProperty, hkey, hown, PropertyValue.truthy, Run.throw]

/-- C10, at an input where the code departs from it: `constructor` is not a key of
the loaded manifest, yet `TestExecutor.execute` does not fail with `TestNotFound`;
the inherited property is truthy and the spread of its missing `launchParameters`
throws a `TypeError`, before any directory is made or process spawned. -/
theorem execute_inherited_name_not_TestNotFound :
    (TestExecutor.new exampleConfig).open successWorld exampleStaging = .ok exampleExecutor ∧
      exampleExecutor._config.lookup "constructor" = none ∧
      exampleExecutor.execute successWorld "constructor" = ⟨[], .rejected .TypeError⟩ := by
  decide!

end Zemog

namespace Zemog

/-! ## The rewrite of launch parameters -/

/-- The pattern matches only where the text has `=`. -/
theorem matchRelativeAt_cons_ne (c : Char) (s : List Char) (h : c ≠ '=') :
    matchRelativeAt (c :: s) = none := by
  simp [matchRelativeAt, h]

/-- Past a stretch without `=`, the search goes on in what follows. -/
theorem searchRelative_append (pre s : List Char) (h : '=' ∉ pre) :
    searchRelative (pre ++ s) =
      (searchRelative s).map fun m => { m with before := pre ++ m.before } := by
  induction pre with
  | nil =>
    rw [List.nil_append]
    cases searchRelative s <;> rfl
  | cons c pre ih =>
    have hc : c ≠ '=' := fun e => h (by simp [e])
    have hpre : '=' ∉ pre := fun e => h (List.mem_cons_of_mem _ e)
    rw [List.cons_append, searchRelative, matchRelativeAt_cons_ne c _ hc, ih hpre]
    cases searchRelative s <;> rfl

/-- The pattern at `=./`. -/
theorem searchRelative_relative (rest : List Char) :
    searchRelative ('=' :: '.' :: '/' :: rest) =
      some ⟨[], ['='], ['.', '/'], rest.takeWhile (fun c => !isLineTerminator c),
        rest.dropWhile (fun c => !isLineTerminator c)⟩ := by
  have hw : isWhiteSpace '.' = false := by decide
  simp [searchRelative, matchRelativeAt, matchDotSlash, hw]

/-- A stretch of the replacement text without `$` stands for itself. -/
theorem getSubstitution_append (matched before after : List Char)
    (captures : List (List Char)) (a b : List Char) (h : '$' ∉ a) :
    getSubstitution matched before after captures (a ++ b) =
      a ++ getSubstitution matched before after captures b := by
  unfold getSubstitution
  induction a with
  | nil => rfl
  | cons c a ih =>
    have hc : c ≠ '$' := fun e => h (by simp [e])
    have ha : '$' ∉ a := fun e => h (List.mem_cons_of_mem _ e)
    simp [expandReplacement, hc, ih ha]

/-- The text `$1` before a letter stands for the first capture. -/
theorem getSubstitution_first (matched before after g1 g2 g3 t : List Char) :
    getSubstitution matched before after [g1, g2, g3] ('$' :: '1' :: 'f' :: t) =
      g1 ++ getSubstitution matched before after [g1, g2, g3] ('f' :: t) := by
  have h1 : digitValue '1' = some 1 := by decide
  have h2 : digitValue 'f' = none := by decide
  have hr : dollarReference matched before after [g1, g2, g3] ('1' :: 'f' :: t) =
      some (g1, 1) := by
    simp [dollarReference, h1, h2, captureText]
  simp [getSubstitution, expandReplacement, hr]

/-- The text `$3` at the end stands for the third capture. -/
theorem getSubstitution_third (matched before after g1 g2 g3 : List Char) :
    getSubstitution matched before after [g1, g2, g3] ['$', '3'] = g3 := by
  have h3 : digitValue '3' = some 3 := by decide
  have hr : dollarReference matched before after [g1, g2, g3] ['3'] = some (g3, 1) := by
    simp [dollarReference, h3, captureText]
  simp [getSubstitution, expandReplacement, hr]
/-- The rewrite of a line `pre=./rest` under a directory that `path.join` leaves as it
is. -/
theorem rewriteLaunchParameter_relative (pathToTests pre rest : String)
    (hpre : '=' ∉ pre.data) (hdollar : '$' ∉ pathToTests.data)
    (hjoin : pathJoin [pathToTests, "$3"] = pathToTests ++ "/$3") :
    rewriteLaunchParameter pathToTests (pre ++ "=./" ++ rest) =
      pre ++ "=file:///" ++ pathToTests ++ "/" ++ rest := by
  have hline : (pre ++ "=./" ++ rest).data = pre.data ++ ('=' :: '.' :: '/' :: rest.data) := by
    simp [String.data_append]
  have htemplate : ("$1file:///" ++ pathJoin [pathToTests, "$3"]).data =
      '$' :: '1' :: 'f' :: (['i', 'l', 'e', ':', '/', '/', '/'] ++ pathToTests.data ++ ['/'] ++
        ['$', '3']) := by
    rw [hjoin]
    simp [String.data_append]
  have hfree : '$' ∉ ['i', 'l', 'e', ':', '/', '/', '/'] ++ pathToTests.data ++ ['/'] := by
    simp [hdollar]
  unfold rewriteLaunchParameter
  simp only [hline, searchRelative_append _ _ hpre, searchRelative_relative, Option.map_some',
    htemplate, getSubstitution_first]
  rw [show ('f' :: (['i', 'l', 'e', ':', '/', '/', '/'] ++ pathToTests.data ++ ['/'] ++
      ['$', '3'])) = ('f' :: (['i', 'l', 'e', ':', '/', '/', '/'] ++ pathToTests.data ++ ['/'])) ++
      ['$', '3'] from by simp]
  rw [getSubstitution_append _ _ _ _ _ _ (by simpa using hdollar), getSubstitution_third]
  apply String.ext
  simp [String.data_append, List.takeWhile_append_dropWhile]

end Zemog

namespace Zemog

/-- The loop of `open` leaves every test of the manifest with its launch parameters
rewritten. -/
theorem rewriteManifest_lookup (pathToTests name : String)
    (launchParameters : Option (List String)) (hname : name ≠ "version") :
    ∀ (manifest loaded : Manifest),
      TestExecutor.rewriteManifest pathToTests manifest = .ok loaded →
      manifest.lookup name = some (.object launchParameters) →
      loaded.lookup name = some (.object (some
        ((launchParameters.getD []).map (rewriteLaunchParameter pathToTests)))) := by
  intro manifest
  induction manifest with
  | nil => intro loaded _ h; simp at h
  | cons entry rest ih =>
    obtain ⟨key, value⟩ := entry
    intro loaded hok hfind
    unfold TestExecutor.rewriteManifest at hok
    by_cases hkey : name = key
    · subst hkey
      simp only [List.lookup_cons, beq_self_eq_true, Option.some.injEq] at hfind
      subst hfind
      simp only [hname, if_false] at hok
      cases hrest : TestExecutor.rewriteManifest pathToTests rest with
      | error e => simp [hrest, Except.map] at hok
      | ok rest1 =>
        simp only [hrest, Except.map, Except.ok.injEq] at hok
        subst hok
        simp
    · have hbeq : (name == key) = false := by simpa using hkey
      simp only [List.lookup_cons, hbeq] at hfind
      cases hrest : TestExecutor.rewriteManifest pathToTests rest with
      | error e =>
        split at hok
        · simp [hrest, Except.map] at hok
        · split at hok <;> simp [hrest, Except.map] at hok
      | ok rest1 =>
        have hlook := ih rest1 hrest hfind
        split at hok
        · simp only [hrest, Except.map, Except.ok.injEq] at hok
          subst hok
          simp [List.lookup_cons, hbeq, hlook]
        · split at hok
          · simp at hok
          · simp at hok
          · simp only [hrest, Except.map, Except.ok.injEq] at hok
            subst hok
            simp [List.lookup_cons, hbeq, hlook]

/-- What a successful `open` of a tests directory has read and stored. -/
theorem open_ok_directory (w : World) (self loaded : TestExecutor) (pathToTests : String)
    (manifest : Manifest) (hstat : w.testsStat pathToTests = some true)
    (hjson : w.requireJson (pathJoin [pathToTests, CONFIGURATION_FILE]) = some manifest)
    (hopen : self.open w pathToTests = .ok loaded) :
    TestExecutor.rewriteManifest pathToTests manifest = .ok loaded._config := by
  unfold TestExecutor.open at hopen
  simp only [hstat, if_true, hjson] at hopen
  split at hopen
  · simp at hopen
  · cases hrest : TestExecutor.rewriteManifest pathToTests manifest with
    | error e => simp [hrest, Except.map] at hopen
    | ok config1 =>
      simp only [hrest, Except.map, Except.ok.injEq] at hopen
      subst hopen
      rfl

/-- C4 (as amended): when `TestExecutor.open` loads the manifest of a tests directory
`pathToTests` that `path.join` leaves as it is and that has no `$` in it, a test of the
manifest ends up with each of its launch parameters rewritten, and the rewrite of a
launch parameter `pre=./rest`, `pre` without `=`, is `pre=file:///` followed by
`pathToTests/rest`: the text `file:///` is put before the joined path, so that an
absolute directory gives four slashes. -/
theorem open_rewrites_relative_parameter (w : World) (self loaded : TestExecutor)
    (pathToTests name pre rest : String) (manifest : Manifest)
    (launchParameters : List String)
    (hstat : w.testsStat pathToTests = some true)
    (hjson : w.requireJson (pathJoin [pathToTests, CONFIGURATION_FILE]) = some manifest)
    (hopen : self.open w pathToTests = .ok loaded)
    (hname : name ≠ "version")
    (htest : manifest.lookup name = some (.object (some launchParameters)))
    (hpre : '=' ∉ pre.data) (hdollar : '$' ∉ pathToTests.data)
    (hjoin : pathJoin [pathToTests, "$3"] = pathToTests ++ "/$3") :
    loaded._config.lookup name = some (.object (some
        (launchParameters.map (rewriteLaunchParameter pathToTests)))) ∧
      rewriteLaunchParameter pathToTests (pre ++ "=./" ++ rest) =
        pre ++ "=file:///" ++ pathToTests ++ "/" ++ rest :=
  ⟨rewriteManifest_lookup pathToTests name (some launchParameters) hname manifest
      loaded._config (open_ok_directory w self loaded pathToTests manifest hstat hjson hopen)
      htest,
    rewriteLaunchParameter_relative pathToTests pre rest hpre hdollar hjoin⟩

/-- The amended C4 at `-Dfile=./data/x.json` staged under `/tmp/run1`. -/
theorem open_rewrites_relative_parameter_witness :
    successWorld.testsStat "/tmp/run1" = some true ∧
      successWorld.requireJson (pathJoin ["/tmp/run1", CONFIGURATION_FILE]) =
        some exampleManifest ∧
      (TestExecutor.new exampleConfig).open successWorld "/tmp/run1" =
        .ok ⟨"lib/iridium.jar", ["-Xmx512m"],
          [("version", .primitive true),
            ("connectionTest", .object (some ["-Dfile=file:////tmp/run1/data/x.json"]))]⟩ ∧
      exampleManifest.lookup "connectionTest" =
        some (.object (some ["-Dfile=./data/x.json"])) ∧
      '=' ∉ "-Dfile".data ∧ '$' ∉ "/tmp/run1".data ∧
      pathJoin ["/tmp/run1", "$3"] = "/tmp/run1" ++ "/$3" ∧
      (⟨"lib/iridium.jar", ["-Xmx512m"],
        [("version", .primitive true),
          ("connectionTest", .object (some ["-Dfile=file:////tmp/run1/data/x.json"]))]⟩ :
        TestExecutor)._config.lookup "connectionTest" = some (.object (some
        (["-Dfile=./data/x.json"].map (rewriteLaunchParameter "/tmp/run1")))) ∧
      rewriteLaunchParameter "/tmp/run1" ("-Dfile" ++ "=./" ++ "data/x.json") =
        "-Dfile" ++ "=file:///" ++ "/tmp/run1" ++ "/" ++ "data/x.json" :=
  ⟨by decide!, by decide!, by decide!, by decide!, by decide!, by decide!, by decide!,
    open_rewrites_relative_parameter successWorld (TestExecutor.new exampleConfig) _
      "/tmp/run1" "connectionTest" "-Dfile" "data/x.json" exampleManifest
      ["-Dfile=./data/x.json"] (by decide!) (by decide!) (by decide!) (by decide!)
      (by decide!) (by decide!) (by decide!) (by decide!)⟩

/-- C4 fails as stated: `-Dfile=./data/x.json` staged under `/tmp/run1` becomes
`-Dfile=file:////tmp/run1/data/x.json`, with four slashes, and not
`-Dfile=file:///tmp/run1/data/x.json`. -/
theorem open_relative_parameter_four_slashes :
    (TestExecutor.new exampleConfig).open successWorld "/tmp/run1" =
        .ok ⟨"lib/iridium.jar", ["-Xmx512m"],
          [("version", .primitive true),
            ("connectionTest", .object (some ["-Dfile=file:////tmp/run1/data/x.json"]))]⟩ ∧
      rewriteLaunchParameter "/tmp/run1" "-Dfile=./data/x.json" ≠
        "-Dfile=file:///tmp/run1/data/x.json" := by
  decide!

/-! ## The uploader -/

/-- C5, where the code departs from it: the promise `File.uploadTestResult` returns
for an archive object is never rejected, whatever the store answers; when `putObject`
fails with `NoSuchKey` the inner chain is rejected with `TestResultNotUploaded`, but
the returned promise stays unsettled, the failure handler of `Application.start`
does not run and no exception counter is emitted. -/
theorem uploadTestResult_never_rejected :
    (∀ (config : Config) (w : World) (archive : ResultArchive) (reason : JsError),
        (File.uploadTestResult config w (.object archive)).result ≠ .rejected reason) ∧
      uploadRefusedWorld.resultsExist exampleArchive.src = true ∧
      (File.uploadChain exampleConfig uploadRefusedWorld exampleArchive
          "tests/result/connectionTest-zip-2023-11-14T22-13-20.000Z").result =
        .rejected .TestResultNotUploaded ∧
      (File.uploadTestResult exampleConfig uploadRefusedWorld (.object exampleArchive)).result =
        .pending ∧
      (Application.start exampleConfig uploadRefusedWorld).result = .pending ∧
      TEST_EXCEPTION ∉ metricNames (Application.start exampleConfig uploadRefusedWorld).trace := by
  refine ⟨?_, by decide!, by decide!, by decide!, by decide!, by decide!⟩
  intro config w archive reason
  simp only [File.uploadTestResult]
  split
  · dsimp only
    split <;> simp
  · simp

end Zemog

namespace Zemog

/-! ## The package stager -/

/-- The folder helper issues no call but `mkdir` and `rimraf`. -/
theorem createFolder_effects (w : World) (folder : String) (forceDelete : Bool) :
    ∀ e ∈ (File.createFolderIfNeeded w folder forceDelete).trace,
      (∃ p, e = .mkdir p) ∨ ∃ p, e = .rimraf p := by
  have hmk : ∀ e ∈ (if w.mkdirFails folder then Run.throw .FileOperationError
      else Run.emit (.mkdir folder) : Run Unit).trace,
      (∃ p, e = .mkdir p) ∨ ∃ p, e = .rimraf p := by
    split
    · exact Run.forall_throw _
    · exact Run.forall_emit (Or.inl ⟨_, rfl⟩)
  unfold File.createFolderIfNeeded
  dsimp only
  split
  · exact hmk
  · exact Run.forall_andThen (Run.forall_emit (Or.inr ⟨_, rfl⟩)) fun _ => hmk
  · split
    · exact Run.forall_andThen (Run.forall_emit (Or.inr ⟨_, rfl⟩)) fun _ => hmk
    · exact Run.forall_resolve _

/-- The folder helper never stays unsettled. -/
theorem createFolder_settles (w : World) (folder : String) (forceDelete : Bool) :
    (File.createFolderIfNeeded w folder forceDelete).result = .resolved () ∨
      (File.createFolderIfNeeded w folder forceDelete).result =
        .rejected .FileOperationError := by
  unfold File.createFolderIfNeeded
  dsimp only
  split
  · split <;> simp
  · split <;> simp [Run.andThen]
  · split
    · split <;> simp [Run.andThen]
    · simp

/-- A trace of `mkdir` and `rimraf` calls has no download call. -/
theorem downloadCalls_of_folder_effects (trace : List Effect)
    (h : ∀ e ∈ trace, (∃ p, e = .mkdir p) ∨ ∃ p, e = .rimraf p) :
    downloadCalls trace = [] := by
  unfold downloadCalls
  rw [List.filterMap_eq_nil_iff]
  intro e he
  rcases h e he with ⟨p, rfl⟩ | ⟨p, rfl⟩ <;> rfl

/-- The trace of the stager once both folders are there. -/
theorem retrieveTestFiles_trace (w : World) (src : String) (hsrc : src ≠ "")
    (hroot : (File.createFolderIfNeeded w (File.tmpRootFolder w) false).result = .resolved ())
    (hfolder :
      (File.createFolderIfNeeded w (File.stagingFolder w src) true).result = .resolved ()) :
    (File.retrieveTestFiles w src).trace =
      (File.createFolderIfNeeded w (File.tmpRootFolder w) false).trace ++
        ((File.createFolderIfNeeded w (File.stagingFolder w src) true).trace ++
          (File.fetchAndUnpack w src (File.cacheFile w src) (File.stagingFolder w src)).trace) := by
  unfold File.retrieveTestFiles
  rw [if_neg hsrc, Run.andThen_resolved _ hroot, Run.andThen_resolved _ hfolder]

/-- The metadata call is made only once both folders are there. -/
theorem retrieveTestFiles_called (w : World) (src : String)
    (hcall : .headObject (File.getPathObject src) ∈ (File.retrieveTestFiles w src).trace) :
    src ≠ "" ∧
      (File.createFolderIfNeeded w (File.tmpRootFolder w) false).result = .resolved () ∧
      (File.createFolderIfNeeded w (File.stagingFolder w src) true).result = .resolved () := by
  have hno : ∀ (folder : String) (forceDelete : Bool),
      .headObject (File.getPathObject src) ∉
        (File.createFolderIfNeeded w folder forceDelete).trace := by
    intro folder forceDelete hmem
    rcases createFolder_effects w folder forceDelete _ hmem with ⟨p, hp⟩ | ⟨p, hp⟩ <;>
      cases hp
  unfold File.retrieveTestFiles at hcall
  by_cases hsrc : src = ""
  · simp [hsrc] at hcall
  · rw [if_neg hsrc] at hcall
    refine ⟨hsrc, ?_⟩
    rcases createFolder_settles w (File.tmpRootFolder w) false with hroot | hroot
    · rw [Run.andThen_resolved _ hroot] at hcall
      refine ⟨hroot, ?_⟩
      rcases createFolder_settles w (File.stagingFolder w src) true with hfolder | hfolder
      · exact hfolder
      · rw [Run.andThen_rejected _ hfolder] at hcall
        rcases List.mem_append.mp hcall with h | h
        · exact absurd h (hno _ _)
        · exact absurd h (hno _ _)
    · rw [Run.andThen_rejected _ hroot] at hcall
      exact absurd hcall (hno _ _)

/-- The `.catch` of the stager issues no call. -/
theorem renameFailure_trace (err : JsError) : (File.renameFailure err).trace = [] := by
  unfold File.renameFailure
  split
  · split
    · rfl
    · split <;> rfl
  · rfl

/-- The cached package is up to date exactly when it exists, the date of the store is
valid, and the creation time is not before it. -/
theorem cacheUpToDate_iff (cacheBirthtime lastModified : Option Int) :
    File.cacheUpToDate cacheBirthtime lastModified = true ↔
      ∃ birthtime modified, cacheBirthtime = some birthtime ∧
        lastModified = some modified ∧ birthtime ≥ modified := by
  cases cacheBirthtime <;> cases lastModified <;> simp [File.cacheUpToDate]

/-- The refresh of an up-to-date cache does nothing. -/
theorem refreshCache_upToDate (w : World) (src cache : String) (lastModified : Option Int)
    (h : File.cacheUpToDate w.cacheBirthtime lastModified = true) :
    File.refreshCache w src cache lastModified = ⟨[], .resolved ()⟩ := by
  simp [File.refreshCache, h, Run.resolve]

/-- The refresh of any other cache: one download, and the write of its body. -/
theorem refreshCache_stale (w : World) (src cache : String) (lastModified : Option Int)
    (h : File.cacheUpToDate w.cacheBirthtime lastModified = false) :
    File.refreshCache w src cache lastModified =
      match w.get with
      | .ok body =>
        if w.writeFails then ⟨[.getObject (File.getPathObject src)], .rejected .FileOperationError⟩
        else ⟨[.getObject (File.getPathObject src), .writeFile cache body], .resolved ()⟩
      | .error reason => ⟨[.getObject (File.getPathObject src)], .rejected reason⟩ := by
  cases hg : w.get <;> cases hwf : w.writeFails <;>
    simp [File.refreshCache, h, hg, hwf, Run.andThen, Run.ofExcept, Run.emit, Run.resolve,
      Run.throw]

/-- The trace of the chain of the stager when the metadata call succeeds: the
metadata call, the refresh of the cache, and the unpacking if the refresh went
through. -/
theorem fetchAndUnpack_trace (w : World) (src cache folder : String)
    (lastModified : Option Int) (hhead : w.head = .ok lastModified) :
    (File.fetchAndUnpack w src cache folder).trace =
      .headObject (File.getPathObject src) ::
        ((File.refreshCache w src cache lastModified).trace ++
          match (File.refreshCache w src cache lastModified).result with
          | .resolved _ => [.decompress cache folder]
          | _ => []) := by
  unfold File.fetchAndUnpack
  rcases hr : (File.refreshCache w src cache lastModified).result with _ | reason | _ <;>
    cases hu : w.unpack <;>
    simp [Run.andThen, Run.catchWith, Run.ofExcept, Run.emit, Run.resolve, Run.throw, hhead,
      hr, hu, renameFailure_trace]

/-- Where a trace ends with its only unpacking, everything else comes before it. -/
theorem before_only_decompress (front : List Effect) (last : Effect)
    (hfront : ∀ e ∈ front, ∀ archive dest, e ≠ .decompress archive dest) :
    ∀ (before after : List Effect) (archive dest : String),
      front ++ [last] = before ++ .decompress archive dest :: after →
      before = front ∧ last = .decompress archive dest := by
  induction front with
  | nil =>
    intro before after archive dest h
    cases before with
    | nil =>
      simp only [List.nil_append, List.cons.injEq] at h
      exact ⟨rfl, h.1⟩
    | cons b bs =>
      simp only [List.nil_append, List.cons_append, List.cons.injEq] at h
      have hnil := h.2
      cases bs <;> simp at hnil
  | cons c cs ih =>
    intro before after archive dest h
    cases before with
    | nil =>
      simp only [List.nil_append, List.cons_append, List.cons.injEq] at h
      exact absurd h.1 (hfront c (List.mem_cons_self _ _) archive dest)
    | cons b bs =>
      simp only [List.cons_append, List.cons.injEq] at h
      obtain ⟨hb, hrest⟩ :=
        ih (fun e he => hfront e (List.mem_cons_of_mem _ he)) bs after archive dest h.2
      exact ⟨by rw [h.1, hb], hrest⟩

/-- C6: in `File.retrieveTestFiles`, once the metadata call has been made and has
succeeded, a cached package whose creation time is at or after the last-modified
time of the store leads to no download call; in every other case exactly one
download call is made and, when it brings a body and the write goes through, that
body is written to the cache file; and with a cached package strictly older than
the copy in the store, wherever the trace has an unpacking, the download call and,
after it, the write of the downloaded body to the file that is unpacked come before
that unpacking in the trace. -/
theorem retrieveTestFiles_cache (w : World) (src : String) (lastModified : Option Int)
    (hcall : .headObject (File.getPathObject src) ∈ (File.retrieveTestFiles w src).trace)
    (hhead : w.head = .ok lastModified) :
    ((∃ birthtime modified, w.cacheBirthtime = some birthtime ∧
          lastModified = some modified ∧ birthtime ≥ modified) →
        downloadCalls (File.retrieveTestFiles w src).trace = []) ∧
      ((¬ ∃ birthtime modified, w.cacheBirthtime = some birthtime ∧
          lastModified = some modified ∧ birthtime ≥ modified) →
        downloadCalls (File.retrieveTestFiles w src).trace = [File.getPathObject src] ∧
          ∀ body, w.get = .ok body → w.writeFails = false →
            .writeFile (File.cacheFile w src) body ∈ (File.retrieveTestFiles w src).trace) ∧
      (∀ birthtime modified, w.cacheBirthtime = some birthtime →
        lastModified = some modified → birthtime < modified →
        ∀ archive dest before after,
          (File.retrieveTestFiles w src).trace = before ++ .decompress archive dest :: after →
          ∃ body first second third, w.get = .ok body ∧
            before = first ++ .getObject (File.getPathObject src) ::
              (second ++ .writeFile archive body :: third)) := by
  obtain ⟨hsrc, hroot, hfolder⟩ := retrieveTestFiles_called w src hcall
  have htrace := retrieveTestFiles_trace w src hsrc hroot hfolder
  have hd1 := downloadCalls_of_folder_effects _
    (createFolder_effects w (File.tmpRootFolder w) false)
  have hd2 := downloadCalls_of_folder_effects _
    (createFolder_effects w (File.stagingFolder w src) true)
  have hfetch := fetchAndUnpack_trace w src (File.cacheFile w src) (File.stagingFolder w src)
    lastModified hhead
  have hdl : downloadCalls (File.retrieveTestFiles w src).trace =
      downloadCalls
        (File.fetchAndUnpack w src (File.cacheFile w src) (File.stagingFolder w src)).trace := by
    rw [htrace]
    unfold downloadCalls at hd1 hd2 ⊢
    rw [List.filterMap_append, List.filterMap_append, hd1, hd2]
    rfl
  have hmem : ∀ e, (∀ p, e ≠ .mkdir p) → (∀ p, e ≠ .rimraf p) →
      (e ∈ (File.retrieveTestFiles w src).trace ↔
        e ∈ (File.fetchAndUnpack w src (File.cacheFile w src)
          (File.stagingFolder w src)).trace) := by
    intro e h1 h2
    rw [htrace]
    constructor
    · intro h
      rcases List.mem_append.mp h with h | h
      · rcases createFolder_effects w _ _ e h with ⟨p, hp⟩ | ⟨p, hp⟩
        · exact absurd hp (h1 p)
        · exact absurd hp (h2 p)
      · rcases List.mem_append.mp h with h | h
        · rcases createFolder_effects w _ _ e h with ⟨p, hp⟩ | ⟨p, hp⟩
          · exact absurd hp (h1 p)
          · exact absurd hp (h2 p)
        · exact h
    · intro h
      exact List.mem_append_right _ (List.mem_append_right _ h)
  refine ⟨?_, ?_, ?_⟩
  · intro hfresh
    have hup := (cacheUpToDate_iff _ _).mpr hfresh
    rw [hdl, hfetch, refreshCache_upToDate w src _ lastModified hup]
    rfl
  · intro hnot
    have hup : File.cacheUpToDate w.cacheBirthtime lastModified = false := by
      rw [Bool.eq_false_iff]
      exact fun h => hnot ((cacheUpToDate_iff _ _).mp h)
    have hstale := refreshCache_stale w src (File.cacheFile w src) lastModified hup
    constructor
    · rw [hdl, hfetch, hstale]
      cases w.get <;> cases w.writeFails <;> rfl
    · intro body hg hwf
      rw [hmem _ (fun p h => by cases h) (fun p h => by cases h), hfetch, hstale, hg, hwf]
      simp
  · intro birthtime modified hb hm hlt archive dest before after hsplit
    have hup : File.cacheUpToDate w.cacheBirthtime lastModified = false := by
      rw [Bool.eq_false_iff]
      intro h
      obtain ⟨b1, m1, hb1, hm1, hge⟩ := (cacheUpToDate_iff _ _).mp h
      rw [hb] at hb1
      rw [hm] at hm1
      cases hb1
      cases hm1
      omega
    have hstale := refreshCache_stale w src (File.cacheFile w src) lastModified hup
    have hdec : .decompress archive dest ∈ (File.retrieveTestFiles w src).trace := by
      rw [hsplit]
      simp
    rw [hmem _ (fun p h => by cases h) (fun p h => by cases h), hfetch, hstale] at hdec
    cases hg : w.get with
    | error reason =>
      rw [hg] at hdec
      simp at hdec
    | ok body =>
      rw [hg] at hdec
      cases hwf : w.writeFails
      · have hshape : (File.retrieveTestFiles w src).trace =
            ((File.createFolderIfNeeded w (File.tmpRootFolder w) false).trace ++
              ((File.createFolderIfNeeded w (File.stagingFolder w src) true).trace ++
                [.headObject (File.getPathObject src), .getObject (File.getPathObject src),
                  .writeFile (File.cacheFile w src) body])) ++
              [.decompress (File.cacheFile w src) (File.stagingFolder w src)] := by
          rw [htrace, hfetch, hstale, hg, hwf]
          simp
        have hfront : ∀ e ∈ (File.createFolderIfNeeded w (File.tmpRootFolder w) false).trace ++
            ((File.createFolderIfNeeded w (File.stagingFolder w src) true).trace ++
              [.headObject (File.getPathObject src), .getObject (File.getPathObject src),
                .writeFile (File.cacheFile w src) body]),
            ∀ archive1 dest1, e ≠ .decompress archive1 dest1 := by
          intro e he archive1 dest1 heq
          subst heq
          rcases List.mem_append.mp he with h | h
          · rcases createFolder_effects w _ _ _ h with ⟨p, hp⟩ | ⟨p, hp⟩ <;> cases hp
          · rcases List.mem_append.mp h with h1 | h1
            · rcases createFolder_effects w _ _ _ h1 with ⟨p, hp⟩ | ⟨p, hp⟩ <;> cases hp
            · simp at h1
        rw [hshape] at hsplit
        obtain ⟨hbefore, hlast⟩ := before_only_decompress _ _ hfront before after archive dest
          hsplit
        cases hlast
        refine ⟨body, (File.createFolderIfNeeded w (File.tmpRootFolder w) false).trace ++
          ((File.createFolderIfNeeded w (File.stagingFolder w src) true).trace ++
            [.headObject (File.getPathObject src)]), [], [], rfl, ?_⟩
        rw [hbefore]
        simp
      · rw [hwf] at hdec
        simp at hdec

/-- C6 at a world whose cached package is older than the copy in the store. -/
theorem retrieveTestFiles_cache_witness :
    .headObject (File.getPathObject exampleTask.location) ∈
        (File.retrieveTestFiles staleWorld exampleTask.location).trace ∧
      staleWorld.head = .ok (some 100) ∧
      staleWorld.cacheBirthtime = some 50 ∧
      (File.retrieveTestFiles staleWorld exampleTask.location).trace =
        [.mkdir "/tmp/zemog", .mkdir exampleStaging,
          .headObject ⟨"bucket", "connectionTest.zip"⟩,
          .getObject ⟨"bucket", "connectionTest.zip"⟩,
          .writeFile "/tmp/zemog/connectionTest.zip" "package"] ++
          .decompress "/tmp/zemog/connectionTest.zip" exampleStaging :: [] ∧
    ((∃ birthtime modified, staleWorld.cacheBirthtime = some birthtime ∧
          some (100 : Int) = some modified ∧ birthtime ≥ modified) →
        downloadCalls (File.retrieveTestFiles staleWorld exampleTask.location).trace = []) ∧
      ((¬ ∃ birthtime modified, staleWorld.cacheBirthtime = some birthtime ∧
          some (100 : Int) = some modified ∧ birthtime ≥ modified) →
        downloadCalls (File.retrieveTestFiles staleWorld exampleTask.location).trace =
            [File.getPathObject exampleTask.location] ∧
          ∀ body, staleWorld.get = .ok body → staleWorld.writeFails = false →
            .writeFile (File.cacheFile staleWorld exampleTask.location) body ∈
              (File.retrieveTestFiles staleWorld exampleTask.location).trace) ∧
      (∀ birthtime modified, staleWorld.cacheBirthtime = some birthtime →
        some (100 : Int) = some modified → birthtime < modified →
        ∀ archive dest before after,
          (File.retrieveTestFiles staleWorld exampleTask.location).trace =
            before ++ .decompress archive dest :: after →
          ∃ body first second third, staleWorld.get = .ok body ∧
            before = first ++ .getObject (File.getPathObject exampleTask.location) ::
              (second ++ .writeFile archive body :: third)) :=
  ⟨by decide!, rfl, rfl, by decide!,
    retrieveTestFiles_cache staleWorld exampleTask.location (some 100) (by decide!) rfl⟩

end Zemog

namespace Zemog

/-! ## The orchestrator: what each stage issues -/

/-- The calls of the queue consumer are calls of preparation. -/
theorem queue_preparation (config : Config) (w : World) :
    ∀ e ∈ (Queue.retrieveTask config w).trace, e.isPreparation = true := by
  intro e he
  rcases queue_effects config w e he with ⟨url, rfl⟩ | ⟨url, handle, rfl⟩ <;> rfl

/-- The calls of the folder helper are calls of preparation. -/
theorem createFolder_preparation (w : World) (folder : String) (forceDelete : Bool) :
    ∀ e ∈ (File.createFolderIfNeeded w folder forceDelete).trace, e.isPreparation = true := by
  intro e he
  rcases createFolder_effects w folder forceDelete e he with ⟨p, rfl⟩ | ⟨p, rfl⟩ <;> rfl

/-- The calls of the package stager are calls of preparation. -/
theorem staging_preparation (w : World) (src : String) :
    ∀ e ∈ (File.retrieveTestFiles w src).trace, e.isPreparation = true := by
  unfold File.retrieveTestFiles
  split
  · exact Run.forall_throw _
  · refine Run.forall_andThen (createFolder_preparation _ _ _) fun _ =>
      Run.forall_andThen (createFolder_preparation _ _ _) fun _ => ?_
    unfold File.fetchAndUnpack
    refine Run.forall_catchWith ?_ fun reason => by
      rw [renameFailure_trace]
      simp
    refine Run.forall_andThen (Run.forall_andThen (Run.forall_andThen
      (Run.forall_andThen (Run.forall_emit rfl) fun _ => Run.forall_ofExcept _)
      fun lastModified => ?_)
      fun _ => Run.forall_andThen (Run.forall_emit rfl) fun _ => Run.forall_ofExcept _)
      fun _ => Run.forall_resolve _
    unfold File.refreshCache
    split
    · exact Run.forall_resolve _
    · refine Run.forall_andThen
        (Run.forall_andThen (Run.forall_emit rfl) fun _ => Run.forall_ofExcept _) fun body => ?_
      split
      · exact Run.forall_throw _
      · exact Run.forall_emit rfl

/-- The calls of the process runner are calls of preparation. -/
theorem execute_preparation (w : World) (self : TestExecutor) (testName : String) :
    ∀ e ∈ (self.execute w testName).trace, e.isPreparation = true := by
  unfold TestExecutor.execute
  split
  · exact Run.forall_throw _
  · split
    · exact Run.forall_throw _
    · split
      · exact Run.forall_throw _
      · refine Run.forall_andThen (createFolder_preparation _ _ _) fun _ =>
          Run.forall_andThen (Run.forall_emit rfl) fun _ => ?_
        split
        · exact Run.forall_throw _
        · exact Run.forall_resolve _

/-- Calls of preparation emit no counter. -/
theorem metricNames_of_preparation (trace : List Effect)
    (h : ∀ e ∈ trace, e.isPreparation = true) : metricNames trace = [] := by
  unfold metricNames
  rw [List.filterMap_eq_nil_iff]
  intro e he
  have := h e he
  cases e <;> simp_all [Effect.isPreparation]

/-- Calls of preparation create no archive. -/
theorem createdArchives_of_preparation (trace : List Effect)
    (h : ∀ e ∈ trace, e.isPreparation = true) : createdArchives trace = [] := by
  unfold createdArchives
  rw [List.filterMap_eq_nil_iff]
  intro e he
  have := h e he
  cases e <;> simp_all [Effect.isPreparation]

/-- Calls of preparation upload nothing. -/
theorem uploadCalls_of_preparation (trace : List Effect)
    (h : ∀ e ∈ trace, e.isPreparation = true) : uploadCalls trace = [] := by
  unfold uploadCalls
  rw [List.filterMap_eq_nil_iff]
  intro e he
  have := h e he
  cases e <;> simp_all [Effect.isPreparation]

/-- Calls of preparation send no notification. -/
theorem notificationsSent_of_preparation (trace : List Effect)
    (h : ∀ e ∈ trace, e.isPreparation = true) : notificationsSent trace = [] := by
  unfold notificationsSent
  rw [List.filterMap_eq_nil_iff]
  intro e he
  have := h e he
  cases e <;> simp_all [Effect.isPreparation]

/-- The run of `Application.start` once a task is received, staged, opened and
executed: the calls of the four stages, the callbacks that report, and the failure
handler. -/
theorem start_of_executed (config : Config) (w : World) (task : Task) (tmpFolder : String)
    (testExecutor : TestExecutor) (data : ExecutionResult)
    (hq : (Queue.retrieveTask config w).result = .resolved task)
    (hs : (File.retrieveTestFiles w task.location).result = .resolved tmpFolder)
    (ho : (TestExecutor.new config).open w tmpFolder = .ok testExecutor)
    (he : (testExecutor.execute w task.test).result = .resolved data) :
    Application.start config w =
      (⟨(Queue.retrieveTask config w).trace ++
          ((File.retrieveTestFiles w task.location).trace ++
            ((Metrics.putExecuted ⟨w.instanceId, appNameOf task⟩).trace ++
              ((testExecutor.execute w task.test).trace ++
                (Application.report config w ⟨w.instanceId, appNameOf task⟩ task tmpFolder
                  data).trace))),
        (Application.report config w ⟨w.instanceId, appNameOf task⟩ task tmpFolder
          data).result⟩ : Run Unit).catchWith
        (Application.handleFailure ⟨w.instanceId, appNameOf task⟩) := by
  have hput : (Metrics.putExecuted ⟨w.instanceId, appNameOf task⟩).result = .resolved () := rfl
  have hopen : (Run.ofExcept ((TestExecutor.new config).open w tmpFolder)).result =
      .resolved testExecutor := by rw [ho]; rfl
  unfold Application.start Application.appNameAtCatch
  rw [hq, Run.andThen_resolved _ hq]
  unfold Application.process
  dsimp only
  rw [Run.andThen_resolved _ hs, Run.andThen_resolved _ hput, Run.andThen_resolved _ hopen,
    Run.andThen_resolved _ he]
  simp [Run.ofExcept, ho, Run.resolve]

/-- The report of a run that exited with code `0`: both directories are removed, the
counter of successes is emitted, and the upload is called with `undefined`, which
throws. -/
theorem report_success (config : Config) (w : World) (metrics : Metrics) (task : Task)
    (tmpFolder : String) (data : ExecutionResult) (hcode : data.code = some 0) :
    Application.report config w metrics task tmpFolder data =
      ⟨[.rimraf tmpFolder,
          .putMetricData ⟨"Zemog",
            [⟨TEST_SUCCESSFUL, "Count", 1, none⟩,
              ⟨TEST_SUCCESSFUL, "Count", 1, some [("InstanceId", metrics._instanceId)]⟩,
              ⟨TEST_SUCCESSFUL, "Count", 1, some [("ApplicationName", metrics._appName)]⟩]⟩,
          .rimraf data.tmpTestResultsFolder],
        .rejected .TypeError⟩ := by
  simp [Application.report, Application.handleResult, Application.archiveOrDiscard,
    File.removeTestFiles, hcode,
    Metrics.putSuccessful, Metrics.put, File.uploadTestResult, Run.andThen, Run.emit,
    Run.resolve, Run.throw]

/-- C1, where the code departs from it: in every run of `Application.start` in which
the queue yields a task, staging and `open` succeed and the runner exits with code
`0`, no archive is created, no upload call is made and no notification is sent, but
the failure handler does run: the call `uploadTestResult(undefined)` throws a
`TypeError`, and the counters emitted are `executed`, `successful` and
`exception`. -/
theorem start_success_counts_exception (config : Config) (w : World) (task : Task)
    (tmpFolder : String) (testExecutor : TestExecutor) (data : ExecutionResult)
    (hq : (Queue.retrieveTask config w).result = .resolved task)
    (hs : (File.retrieveTestFiles w task.location).result = .resolved tmpFolder)
    (ho : (TestExecutor.new config).open w tmpFolder = .ok testExecutor)
    (he : (testExecutor.execute w task.test).result = .resolved data)
    (hcode : data.code = some 0) :
    metricNames (Application.start config w).trace =
        [TEST_EXECUTED, TEST_SUCCESSFUL, TEST_EXCEPTION] ∧
      createdArchives (Application.start config w).trace = [] ∧
      uploadCalls (Application.start config w).trace = [] ∧
      notificationsSent (Application.start config w).trace = [] := by
  have hstart := start_of_executed config w task tmpFolder testExecutor data hq hs ho he
  rw [report_success config w _ task tmpFolder data hcode] at hstart
  have hfail : Application.handleFailure ⟨w.instanceId, appNameOf task⟩ .TypeError =
      Metrics.putException ⟨w.instanceId, appNameOf task⟩ := by
    simp [Application.handleFailure]
  rw [Run.catchWith_rejected _ rfl, hfail] at hstart
  have h1 := queue_preparation config w
  have h2 := staging_preparation w task.location
  have h3 := execute_preparation w testExecutor task.test
  rw [hstart]
  refine ⟨?_, ?_, ?_, ?_⟩
  · have m1 := metricNames_of_preparation _ h1
    have m2 := metricNames_of_preparation _ h2
    have m3 := metricNames_of_preparation _ h3
    unfold metricNames at m1 m2 m3 ⊢
    simp only [List.filterMap_append, m1, m2, m3]
    rfl
  · have m1 := createdArchives_of_preparation _ h1
    have m2 := createdArchives_of_preparation _ h2
    have m3 := createdArchives_of_preparation _ h3
    unfold createdArchives at m1 m2 m3 ⊢
    simp only [List.filterMap_append, m1, m2, m3]
    rfl
  · have m1 := uploadCalls_of_preparation _ h1
    have m2 := uploadCalls_of_preparation _ h2
    have m3 := uploadCalls_of_preparation _ h3
    unfold uploadCalls at m1 m2 m3 ⊢
    simp only [List.filterMap_append, m1, m2, m3]
    rfl
  · have m1 := notificationsSent_of_preparation _ h1
    have m2 := notificationsSent_of_preparation _ h2
    have m3 := notificationsSent_of_preparation _ h3
    unfold notificationsSent at m1 m2 m3 ⊢
    simp only [List.filterMap_append, m1, m2, m3]
    rfl

/-- C1 at the end-to-end run of the example: the queue yields a task that lists the
notification code `infra`, staging succeeds and the runner exits with code `0`. -/
theorem start_success_counts_exception_witness :
    (Queue.retrieveTask exampleConfig successWorld).result = .resolved exampleTask ∧
      (File.retrieveTestFiles successWorld exampleTask.location).result =
        .resolved exampleStaging ∧
      (TestExecutor.new exampleConfig).open successWorld exampleStaging =
        .ok exampleExecutor ∧
      (exampleExecutor.execute successWorld exampleTask.test).result =
        .resolved ⟨exampleResults, some 0, "done", ""⟩ ∧
      metricNames (Application.start exampleConfig successWorld).trace =
        [TEST_EXECUTED, TEST_SUCCESSFUL, TEST_EXCEPTION] ∧
      createdArchives (Application.start exampleConfig successWorld).trace = [] ∧
      uploadCalls (Application.start exampleConfig successWorld).trace = [] ∧
      notificationsSent (Application.start exampleConfig successWorld).trace = [] :=
  ⟨by decide!, by decide!, by decide!, by decide!,
    start_success_counts_exception exampleConfig successWorld exampleTask exampleStaging
      exampleExecutor ⟨exampleResults, some 0, "done", ""⟩ (by decide!) (by decide!)
      (by decide!) (by decide!) rfl⟩

end Zemog

namespace Zemog

/-! ## The orchestrator: the callbacks that report -/

/-- A trace is empty when no effect is in it. -/
theorem trace_eq_nil {α : Type} (p : Run α) (h : ∀ e ∈ p.trace, False) : p.trace = [] :=
  List.eq_nil_iff_forall_not_mem.mpr fun e he => h e he

/-- With a value that is not a string in place of the archive path, the statement
that sends a notification throws before the call is made. -/
theorem notify_silent (channel : Channel) (built : Except JsError Unit)
    (code appName testName : String) (file : JsValue) (hfile : ∀ s, file ≠ .string s) :
    ∀ e ∈ (notify channel built code appName testName file).trace, False := by
  have hbase : pathBasename file = .error .TypeError := by
    cases file with
    | string s => exact absurd rfl (hfile s)
    | undefined => rfl
    | object archive => rfl
  unfold notify
  refine Run.forall_andThen (Run.forall_ofExcept _) fun _ => ?_
  rw [hbase, Run.andThen_rejected _ (Run.result_ofExcept_error _)]
  simp

/-- The same for one notification code. -/
theorem notifyCode_silent (config : Config) (appName testName : String) (file : JsValue)
    (code : String) (hfile : ∀ s, file ≠ .string s) :
    ∀ e ∈ (Application.notifyCode config appName testName file code).trace, False := by
  unfold Application.notifyCode
  split
  · exact Run.forall_resolve _
  · refine Run.forall_andThen ?_ fun _ => ?_
    · split
      · split
        · exact notify_silent _ _ _ _ _ _ hfile
        · exact Run.forall_resolve _
      · exact Run.forall_resolve _
    · split
      · split
        · exact notify_silent _ _ _ _ _ _ hfile
        · exact Run.forall_resolve _
      · exact Run.forall_resolve _

/-- The same for the whole loop. -/
theorem notifyAll_silent (config : Config) (appName testName : String) (file : JsValue)
    (hfile : ∀ s, file ≠ .string s) (codes : List String) :
    ∀ e ∈ (Application.notifyAll config appName testName file codes).trace, False := by
  induction codes with
  | nil => exact Run.forall_resolve _
  | cons code rest ih =>
    unfold Application.notifyAll
    exact Run.forall_andThen (notifyCode_silent _ _ _ _ _ hfile) fun _ => ih

/-- The handling of the upload, with a value that is not a string in place of the
archive path, issues no call but the removal of the results directory. -/
theorem handleUpload_effects (config : Config) (task : Task) (results : String)
    (file : JsValue) (locator : Option String) (hfile : ∀ s, file ≠ .string s) :
    ∀ e ∈ (Application.handleUpload config task results file locator).trace,
      e = .rimraf results := by
  unfold Application.handleUpload
  refine Run.forall_andThen ?_ fun _ => Run.forall_emit rfl
  intro e he
  exfalso
  revert e
  split
  · split
    · exact notifyAll_silent _ _ _ _ hfile _
    · exact Run.forall_resolve _
  · exact Run.forall_resolve _

/-- The calls of `Promise.all` are the calls of its promises. -/
theorem promiseAll_effects {P : Effect → Prop} (promises : List (Run Unit))
    (h : ∀ p ∈ promises, ∀ e ∈ p.trace, P e) : ∀ e ∈ (promiseAll promises).trace, P e := by
  intro e he
  unfold promiseAll at he
  simp only [List.mem_flatMap] at he
  obtain ⟨p, hp, hep⟩ := he
  exact h p hp e hep

/-- The uploader issues no call but `readDir` and `putObject`. -/
theorem upload_effects (config : Config) (w : World) (file : JsValue) :
    ∀ e ∈ (File.uploadTestResult config w file).trace,
      (∃ s, e = .readDir s) ∨ ∃ p, e = .putObject p := by
  have hput : ∀ params, ∀ e ∈ (putObject w params).trace,
      (∃ s, e = .readDir s) ∨ ∃ p, e = .putObject p := fun params =>
    Run.forall_andThen (Run.forall_emit (Or.inr ⟨_, rfl⟩)) fun _ => Run.forall_ofExcept _
  unfold File.uploadTestResult
  split
  · exact Run.forall_throw _
  · exact Run.forall_resolve _
  · split
    · dsimp only
      unfold File.uploadChain
      refine Run.forall_andThen
        (Run.forall_andThen (Run.forall_emit (Or.inl ⟨_, rfl⟩)) fun _ => Run.forall_ofExcept _)
        fun files => ?_
      refine Run.forall_catchWith ?_ fun reason => ?_
      · refine Run.forall_andThen (Run.forall_andThen ?_ fun _ => hput _) fun _ =>
          Run.forall_resolve _
        refine promiseAll_effects _ fun p hp => ?_
        obtain ⟨file1, _, rfl⟩ := List.mem_map.mp hp
        exact hput _
      · split
        · exact Run.forall_throw _
        · exact Run.forall_throw _
    · exact Run.forall_resolve _

/-- What the callback that receives the execution result hands on is `undefined` or
the archive object, never a string. -/
theorem archiveOrDiscard_value (w : World) (metrics : Metrics) (task : Task)
    (data : ExecutionResult) (file : JsValue)
    (h : (Application.archiveOrDiscard w metrics task data).result = .resolved file) :
    ∀ s, file ≠ .string s := by
  intro s hs
  subst hs
  unfold Application.archiveOrDiscard at h
  split at h
  · rw [Run.andThen_resolved _ (rfl : (Metrics.putFailed metrics).result = .resolved ())] at h
    dsimp only at h
    rcases ha : (File.archiveTestResult w (dotToDash (lastSegment task.location))
        data.tmpTestResultsFolder).result with archive | reason | _
    · rw [Run.andThen_resolved _ ha] at h
      simp at h
    · rw [Run.andThen_rejected _ ha] at h
      simp at h
    · rw [Run.andThen_pending _ ha] at h
      simp at h
  · simp [Metrics.putSuccessful, Metrics.put, File.removeTestFiles, Run.andThen, Run.emit,
      Run.resolve] at h

/-- The calls of the archiver. -/
theorem archiveTestResult_effects (w : World) (archiveName src : String) :
    ∀ e ∈ (File.archiveTestResult w archiveName src).trace, ∃ p, e = .createWriteStream p := by
  unfold File.archiveTestResult
  split
  · exact Run.forall_throw _
  · refine Run.forall_andThen (Run.forall_emit ⟨_, rfl⟩) fun _ => ?_
    split
    · exact Run.forall_resolve _
    · exact Run.forall_never

/-- The calls of the callback that receives the execution result, after the removal
of the staging directory. -/
theorem archiveOrDiscard_effects (w : World) (metrics : Metrics) (task : Task)
    (data : ExecutionResult) :
    ∀ e ∈ (Application.archiveOrDiscard w metrics task data).trace, e.isReport = true := by
  unfold Application.archiveOrDiscard
  split
  · refine Run.forall_andThen (Run.forall_emit rfl) fun _ =>
      Run.forall_andThen ?_ fun _ => Run.forall_resolve _
    intro e he
    obtain ⟨p, rfl⟩ := archiveTestResult_effects w _ _ e he
    rfl
  · exact Run.forall_andThen (Run.forall_emit rfl) fun _ =>
      Run.forall_andThen (Run.forall_emit rfl) fun _ => Run.forall_resolve _

/-- The upload and its handling issue no call but `readDir`, `putObject` and the
removal of the results directory. -/
theorem uploadAndHandle_effects (config : Config) (w : World) (task : Task) (results : String)
    (file : JsValue) (hfile : ∀ s, file ≠ .string s) :
    ∀ e ∈ ((File.uploadTestResult config w file).andThen fun locator =>
        Application.handleUpload config task results file locator).trace,
      (∃ s, e = .readDir s) ∨ (∃ p, e = .putObject p) ∨ e = .rimraf results := by
  refine Run.forall_andThen ?_ fun locator => ?_
  · intro e he
    rcases upload_effects config w file e he with h | h
    · exact Or.inl h
    · exact Or.inr (Or.inl h)
  · intro e he
    exact Or.inr (Or.inr (handleUpload_effects config task results file locator hfile e he))

/-- The report begins with the removal of the staging directory. -/
theorem report_trace (config : Config) (w : World) (metrics : Metrics) (task : Task)
    (tmpFolder : String) (data : ExecutionResult) :
    (Application.report config w metrics task tmpFolder data).trace =
      .rimraf tmpFolder ::
        ((Application.archiveOrDiscard w metrics task data).andThen fun file =>
          (File.uploadTestResult config w file).andThen fun locator =>
            Application.handleUpload config task data.tmpTestResultsFolder file locator).trace := by
  unfold Application.report Application.handleResult File.removeTestFiles
  rw [Run.andThen_assoc, Run.andThen_resolved _ (Run.result_emit _)]
  rfl

/-- After the removal of the staging directory, the report issues calls of report
only. -/
theorem report_tail_effects (config : Config) (w : World) (metrics : Metrics) (task : Task)
    (data : ExecutionResult) :
    ∀ e ∈ ((Application.archiveOrDiscard w metrics task data).andThen fun file =>
        (File.uploadTestResult config w file).andThen fun locator =>
          Application.handleUpload config task data.tmpTestResultsFolder file locator).trace,
      e.isReport = true := by
  refine Run.forall_andThen_resolved (archiveOrDiscard_effects w metrics task data)
    fun file hfile e he => ?_
  rcases uploadAndHandle_effects config w task _ file
      (archiveOrDiscard_value w metrics task data file hfile) e he with
    ⟨s, rfl⟩ | ⟨p, rfl⟩ | rfl <;> rfl

/-- The failure handler issues no call but the emission of a counter. -/
theorem handleFailure_effects (metrics : Metrics) (err : JsError) :
    ∀ e ∈ (Application.handleFailure metrics err).trace, ∃ p, e = .putMetricData p := by
  unfold Application.handleFailure
  split
  · exact Run.forall_resolve _
  · exact Run.forall_emit ⟨_, rfl⟩

end Zemog

namespace Zemog

/-! ## The orchestrator: directories, archive and notifications -/

/-- The effects of two traces act one after the other on a directory. -/
theorem directoryPresent_append (path : String) (first second : List Effect) :
    ∀ present, directoryPresent path present (first ++ second) =
      directoryPresent path (directoryPresent path present first) second := by
  induction first with
  | nil => intro present; rfl
  | cons e rest ih =>
    intro present
    cases e <;> (rw [List.cons_append]; simp only [directoryPresent]; exact ih _)

/-- The effects of two traces act one after the other on a file. -/
theorem filePresent_append (path : String) (first second : List Effect) :
    ∀ present, filePresent path present (first ++ second) =
      filePresent path (filePresent path present first) second := by
  induction first with
  | nil => intro present; rfl
  | cons e rest ih =>
    intro present
    cases e <;> (rw [List.cons_append]; simp only [filePresent]; exact ih _)

/-- The removal of a path covers the path. -/
theorem covers_self (path : String) : covers path path = true := by
  simp [covers]

/-- Calls of report do not bring a removed directory back. -/
theorem directoryPresent_of_report (path : String) (trace : List Effect)
    (h : ∀ e ∈ trace, e.isReport = true) : directoryPresent path false trace = false := by
  induction trace with
  | nil => rfl
  | cons e rest ih =>
    have he := h e (List.mem_cons_self _ _)
    have hrest := ih fun e1 h1 => h e1 (List.mem_cons_of_mem _ h1)
    cases e <;> simp_all [directoryPresent, Effect.isReport]

/-- A file stays where no removal covers it. -/
theorem filePresent_of_kept (path : String) (trace : List Effect)
    (h : ∀ removed, .rimraf removed ∈ trace → covers removed path = false) :
    filePresent path true trace = true := by
  induction trace with
  | nil => rfl
  | cons e rest ih =>
    have hrest := ih fun removed h1 => h removed (List.mem_cons_of_mem _ h1)
    cases e with
    | rimraf removed =>
      have hc := h removed (List.mem_cons_self _ _)
      simp [filePresent, hc, hrest]
    | _ => simp [filePresent, hrest]

/-- The trace of `Application.start` once a task is received, staged, opened and
executed: the calls of the four stages, the report, and what the failure handler
adds, which is nothing but counters. -/
theorem start_trace_of_executed (config : Config) (w : World) (task : Task)
    (tmpFolder : String) (testExecutor : TestExecutor) (data : ExecutionResult)
    (hq : (Queue.retrieveTask config w).result = .resolved task)
    (hs : (File.retrieveTestFiles w task.location).result = .resolved tmpFolder)
    (ho : (TestExecutor.new config).open w tmpFolder = .ok testExecutor)
    (he : (testExecutor.execute w task.test).result = .resolved data) :
    ∃ handled : List Effect,
      (∀ e ∈ handled, ∃ p, e = .putMetricData p) ∧
      (Application.start config w).trace =
        ((Queue.retrieveTask config w).trace ++
          ((File.retrieveTestFiles w task.location).trace ++
            ((Metrics.putExecuted ⟨w.instanceId, appNameOf task⟩).trace ++
              (testExecutor.execute w task.test).trace))) ++
          ((Application.report config w ⟨w.instanceId, appNameOf task⟩ task tmpFolder
            data).trace ++ handled) := by
  have hstart := start_of_executed config w task tmpFolder testExecutor data hq hs ho he
  rcases hr : (Application.report config w ⟨w.instanceId, appNameOf task⟩ task tmpFolder
      data).result with _ | reason | _
  · refine ⟨[], by simp, ?_⟩
    rw [hstart, Run.catchWith_resolved _ (by rw [hr])]
    simp
  · refine ⟨(Application.handleFailure ⟨w.instanceId, appNameOf task⟩ reason).trace,
      handleFailure_effects _ _, ?_⟩
    rw [hstart, Run.catchWith_rejected _ (by rw [hr])]
    simp
  · refine ⟨[], by simp, ?_⟩
    rw [hstart, Run.catchWith_pending _ (by rw [hr])]
    simp

/-- C2 (as amended): in every run of `Application.start` in which a task is received
and staged, `TestExecutor.open` succeeds and `TestExecutor.execute` resolves, with
any exit code, the staging directory returned by `File.retrieveTestFiles` is gone when
the run ends, whatever archiving, upload and notification do after that. -/
theorem start_removes_staging_after_execution (config : Config) (w : World) (task : Task)
    (tmpFolder : String) (testExecutor : TestExecutor) (data : ExecutionResult)
    (present : Bool)
    (hq : (Queue.retrieveTask config w).result = .resolved task)
    (hs : (File.retrieveTestFiles w task.location).result = .resolved tmpFolder)
    (ho : (TestExecutor.new config).open w tmpFolder = .ok testExecutor)
    (he : (testExecutor.execute w task.test).result = .resolved data) :
    directoryPresent tmpFolder present (Application.start config w).trace = false := by
  obtain ⟨handled, hhandled, htrace⟩ :=
    start_trace_of_executed config w task tmpFolder testExecutor data hq hs ho he
  rw [htrace, directoryPresent_append, report_trace, List.cons_append]
  simp only [directoryPresent, covers_self, if_true]
  apply directoryPresent_of_report
  intro e he1
  rcases List.mem_append.mp he1 with h | h
  · exact report_tail_effects config w _ task data e h
  · obtain ⟨p, rfl⟩ := hhandled e h
    rfl

/-- The amended C2 at a run whose test fails: the staging directory is gone. -/
theorem start_removes_staging_after_execution_witness :
    (Queue.retrieveTask exampleConfig failureWorld).result = .resolved exampleTask ∧
      (File.retrieveTestFiles failureWorld exampleTask.location).result =
        .resolved exampleStaging ∧
      (TestExecutor.new exampleConfig).open failureWorld exampleStaging =
        .ok exampleExecutor ∧
      (exampleExecutor.execute failureWorld exampleTask.test).result =
        .resolved ⟨exampleResults, some 1, "assertion failed", ""⟩ ∧
      directoryPresent exampleStaging false
        (Application.start exampleConfig failureWorld).trace = false :=
  ⟨by decide!, by decide!, by decide!, by decide!,
    start_removes_staging_after_execution exampleConfig failureWorld exampleTask
      exampleStaging exampleExecutor ⟨exampleResults, some 1, "assertion failed", ""⟩ false
      (by decide!) (by decide!) (by decide!) (by decide!)⟩

/-- C2 fails as stated: when `TestExecutor.open` throws, here on a manifest that
cannot be read, the run ends in the failure handler and the staging directory
returned by `File.retrieveTestFiles` is never removed. -/
theorem start_keeps_staging_when_open_throws :
    (Queue.retrieveTask exampleConfig brokenManifestWorld).result = .resolved exampleTask ∧
      (File.retrieveTestFiles brokenManifestWorld exampleTask.location).result =
        .resolved exampleStaging ∧
      (TestExecutor.new exampleConfig).open brokenManifestWorld exampleStaging =
        .error .ConfigurationParseError ∧
      (Application.start exampleConfig brokenManifestWorld).result = .resolved () ∧
      removedPaths (Application.start exampleConfig brokenManifestWorld).trace = [] ∧
      directoryPresent exampleStaging false
        (Application.start exampleConfig brokenManifestWorld).trace = true := by
  decide!

/-- What a resolved `archiveTestResult` has done: it has opened the write stream of
the archive file it resolves with. -/
theorem archiveTestResult_resolved (w : World) (archiveName src : String)
    (archive : ResultArchive)
    (h : (File.archiveTestResult w archiveName src).result = .resolved archive) :
    File.archiveTestResult w archiveName src =
      ⟨[.createWriteStream archive.tmpArchiveFilename], .resolved archive⟩ := by
  unfold File.archiveTestResult at h ⊢
  split at h
  · simp at h
  · rename_i hassert
    rw [if_neg hassert]
    cases hc : w.archiveCloses
    · simp [hc, Run.andThen, Run.emit, Run.never] at h
    · simp only [hc, Run.andThen, Run.emit, Run.resolve, if_true, Settled.resolved.injEq] at h ⊢
      subst h
      rfl

/-- The failure branch with its archive produced: the counter of failures, then the
write stream of the archive. -/
theorem archiveOrDiscard_failure (w : World) (metrics : Metrics) (task : Task)
    (data : ExecutionResult) (archive : ResultArchive) (hcode : data.code ≠ some 0)
    (harchive : (File.archiveTestResult w (dotToDash (lastSegment task.location))
      data.tmpTestResultsFolder).result = .resolved archive) :
    ∃ params, Application.archiveOrDiscard w metrics task data =
      ⟨[.putMetricData params, .createWriteStream archive.tmpArchiveFilename],
        .resolved (.object archive)⟩ := by
  refine ⟨⟨"Zemog",
    [⟨TEST_FAILED, "Count", 1, none⟩,
      ⟨TEST_FAILED, "Count", 1, some [("InstanceId", metrics._instanceId)]⟩,
      ⟨TEST_FAILED, "Count", 1, some [("ApplicationName", metrics._appName)]⟩]⟩, ?_⟩
  unfold Application.archiveOrDiscard
  rw [if_pos hcode, archiveTestResult_resolved w _ _ archive harchive]
  rfl

/-- C7 (as amended): on the failure branch of `Application.start` (exit code not `0`,
archive produced by `File.archiveTestResult`), the archive file is not deleted,
whether the upload succeeds, fails or never settles: after the archive is made
nothing is removed but the results directory, so that an archive file outside the
results directory is still there when the run ends. -/
theorem start_keeps_archive (config : Config) (w : World) (task : Task)
    (tmpFolder : String) (testExecutor : TestExecutor) (data : ExecutionResult)
    (archive : ResultArchive) (present : Bool)
    (hq : (Queue.retrieveTask config w).result = .resolved task)
    (hs : (File.retrieveTestFiles w task.location).result = .resolved tmpFolder)
    (ho : (TestExecutor.new config).open w tmpFolder = .ok testExecutor)
    (he : (testExecutor.execute w task.test).result = .resolved data)
    (hcode : data.code ≠ some 0)
    (harchive : (File.archiveTestResult w (dotToDash (lastSegment task.location))
      data.tmpTestResultsFolder).result = .resolved archive)
    (houtside : covers data.tmpTestResultsFolder archive.tmpArchiveFilename = false) :
    filePresent archive.tmpArchiveFilename present (Application.start config w).trace =
      true := by
  obtain ⟨handled, hhandled, htrace⟩ :=
    start_trace_of_executed config w task tmpFolder testExecutor data hq hs ho he
  obtain ⟨params, hbranch⟩ :=
    archiveOrDiscard_failure w ⟨w.instanceId, appNameOf task⟩ task data archive hcode harchive
  rw [htrace, filePresent_append, report_trace, Run.andThen_resolved _ (by rw [hbranch]),
    hbranch]
  simp only [List.cons_append, filePresent, if_true]
  apply filePresent_of_kept
  intro removed hmem
  rcases List.mem_append.mp hmem with h | h
  · rcases List.mem_append.mp h with h1 | h1
    · simp at h1
    · rcases uploadAndHandle_effects config w task _ (.object archive)
          (fun s hs => by cases hs) _ h1 with ⟨s, hs⟩ | ⟨p, hp⟩ | hr
      · cases hs
      · cases hp
      · cases hr
        exact houtside
  · obtain ⟨p, hp⟩ := hhandled _ h
    cases hp

/-- The amended C7 at a run whose upload is refused by the store. -/
theorem start_keeps_archive_witness :
    (Queue.retrieveTask exampleConfig uploadRefusedWorld).result = .resolved exampleTask ∧
      (File.retrieveTestFiles uploadRefusedWorld exampleTask.location).result =
        .resolved exampleStaging ∧
      (TestExecutor.new exampleConfig).open uploadRefusedWorld exampleStaging =
        .ok exampleExecutor ∧
      (exampleExecutor.execute uploadRefusedWorld exampleTask.test).result =
        .resolved ⟨exampleResults, some 1, "assertion failed", ""⟩ ∧
      (File.archiveTestResult uploadRefusedWorld (dotToDash (lastSegment exampleTask.location))
        exampleResults).result = .resolved exampleArchive ∧
      covers exampleResults exampleArchive.tmpArchiveFilename = false ∧
      filePresent exampleArchive.tmpArchiveFilename false
        (Application.start exampleConfig uploadRefusedWorld).trace = true :=
  ⟨by decide!, by decide!, by decide!, by decide!, by decide!, by decide!,
    start_keeps_archive exampleConfig uploadRefusedWorld exampleTask exampleStaging
      exampleExecutor ⟨exampleResults, some 1, "assertion failed", ""⟩ exampleArchive false
      (by decide!) (by decide!) (by decide!) (by decide!) (by decide!) (by decide!)
      (by decide!)⟩

/-- C7 fails as stated: in a run on the failure branch whose upload succeeds, the
archive file is made, the upload resolves with its locator, the run ends, and the
archive file is still there; the only paths removed are the staging directory and
the results directory. -/
theorem start_leaves_archive_after_upload :
    quietFailureWorld.runner.code = some 1 ∧
      createdArchives (Application.start exampleConfig quietFailureWorld).trace =
        [exampleArchive.tmpArchiveFilename] ∧
      (File.uploadTestResult exampleConfig quietFailureWorld (.object exampleArchive)).result =
        .resolved (some "tests/result/connectionTest-zip-2023-11-14T22-13-20.000Z") ∧
      (Application.start exampleConfig quietFailureWorld).result = .resolved () ∧
      removedPaths (Application.start exampleConfig quietFailureWorld).trace =
        [exampleStaging, exampleResults] ∧
      filePresent exampleArchive.tmpArchiveFilename false
        (Application.start exampleConfig quietFailureWorld).trace = true := by
  decide!

/-- Every call of `Application.start` is a call of preparation or of report: none
sends a notification. -/
theorem start_effects (config : Config) (w : World) :
    ∀ e ∈ (Application.start config w).trace, e.isPreparation = true ∨ e.isReport = true := by
  unfold Application.start
  refine Run.forall_catchWith ?_ fun reason e he => ?_
  · refine Run.forall_andThen (fun e he => Or.inl (queue_preparation config w e he))
      fun task => ?_
    unfold Application.process
    dsimp only
    refine Run.forall_andThen (fun e he => Or.inl (staging_preparation w _ e he))
      fun tmpFolder => Run.forall_andThen (Run.forall_emit (Or.inr rfl)) fun _ =>
      Run.forall_andThen (Run.forall_ofExcept _) fun testExecutor =>
      Run.forall_andThen (fun e he => Or.inl (execute_preparation w _ _ e he)) fun data => ?_
    rw [report_trace]
    intro e he
    rcases List.mem_cons.mp he with h | h
    · subst h
      exact Or.inl rfl
    · exact Or.inr (report_tail_effects config w _ task data e h)
  · obtain ⟨p, rfl⟩ := handleFailure_effects _ reason e he
    exact Or.inr rfl

/-- C8, where the code departs from it: no run of `Application.start` sends a
notification, because `path.basename` is called with the archive object instead of a
path and throws a `TypeError` before `sendNotification` is invoked. For a task with
notifications `["infra"]`, `infra.victorOps.isEnabled` true and
`infra.clickatell.isEnabled` false, a failing test and an upload that produced its
locator, there is no VictorOps send, and the run ends in the failure handler. -/
theorem start_sends_no_notification :
    (∀ (config : Config) (w : World),
        notificationsSent (Application.start config w).trace = []) ∧
      exampleTask.notifications = some ["infra"] ∧
      exampleConfig.notifications.lookup "infra" =
        some ⟨some ⟨true, "https://alert.example/hook"⟩, some ⟨false, "token", some ["+61"]⟩⟩ ∧
      (Queue.retrieveTask exampleConfig failureWorld).result = .resolved exampleTask ∧
      failureWorld.runner.code = some 1 ∧
      (File.uploadTestResult exampleConfig failureWorld (.object exampleArchive)).result =
        .resolved (some "tests/result/connectionTest-zip-2023-11-14T22-13-20.000Z") ∧
      (Application.notifyAll exampleConfig "demo" "connectionTest" (.object exampleArchive)
        ["infra"]).result = .rejected .TypeError ∧
      notificationsSent (Application.start exampleConfig failureWorld).trace = [] ∧
      metricNames (Application.start exampleConfig failureWorld).trace =
        [TEST_EXECUTED, TEST_FAILED, TEST_EXCEPTION] := by
  refine ⟨?_, by decide!, by decide!, by decide!, by decide!, by decide!, by decide!,
    by decide!, by decide!⟩
  intro config w
  unfold notificationsSent
  rw [List.filterMap_eq_nil_iff]
  intro e he
  rcases start_effects config w e he with h | h <;>
    cases e <;> simp_all [Effect.isPreparation, Effect.isReport]

end Zemog

namespace Zemog

/-! ## The manifest: the legacy shape -/

/-- The loop of `open` does not get past a value that is not an object. -/
theorem rewriteManifest_not_ok (pathToTests name : String) (value : ManifestValue)
    (hname : name ≠ "version") (hvalue : ∀ launchParameters, value ≠ .object launchParameters) :
    ∀ (manifest loaded : Manifest), manifest.lookup name = some value →
      TestExecutor.rewriteManifest pathToTests manifest ≠ .ok loaded := by
  intro manifest
  induction manifest with
  | nil => intro loaded h; simp at h
  | cons entry rest ih =>
    obtain ⟨key, found⟩ := entry
    intro loaded hfind hok
    unfold TestExecutor.rewriteManifest at hok
    by_cases hkey : name = key
    · subst hkey
      simp only [List.lookup_cons, beq_self_eq_true, Option.some.injEq] at hfind
      subst hfind
      simp only [hname, if_false] at hok
      cases found with
      | null => simp at hok
      | primitive truthy => simp at hok
      | object launchParameters => exact hvalue launchParameters rfl
    · have hbeq : (name == key) = false := by simpa using hkey
      simp only [List.lookup_cons, hbeq] at hfind
      cases hrest : TestExecutor.rewriteManifest pathToTests rest with
      | error e =>
        split at hok
        · simp [hrest, Except.map] at hok
        · split at hok <;> simp [hrest, Except.map] at hok
      | ok rest1 => exact ih rest1 hfind hrest

/-- C11 (as amended): for every manifest whose top-level `launchParameters` key has a
truthy value (an object or an array, the empty array included, a non-empty string, a
number other than zero, `true`), `TestExecutor.open` fails with
`ConfigurationParseError`; and for every manifest that has the key, whatever its
value, `open` throws: it never returns normally. -/
theorem open_rejects_legacy_manifest (w : World) (self : TestExecutor)
    (pathToTests : String) (isDirectory : Bool) (manifest : Manifest) (value : ManifestValue)
    (hstat : w.testsStat pathToTests = some isDirectory)
    (hjson : w.requireJson
      (if isDirectory then pathJoin [pathToTests, CONFIGURATION_FILE] else pathToTests) =
        some manifest)
    (hkey : manifest.lookup "launchParameters" = some value) :
    (value.truthy = true → self.open w pathToTests = .error .ConfigurationParseError) ∧
      ∀ loaded, self.open w pathToTests ≠ .ok loaded := by
  have hread : getProperty manifest "launchParameters" = .own value := by
    simp [getProperty, hkey]
  constructor
  · intro htruthy
    unfold TestExecutor.open
    simp only [hstat, hjson, hread, PropertyValue.truthy, htruthy, if_true]
  · intro loaded hopen
    unfold TestExecutor.open at hopen
    simp only [hstat, hjson, hread, PropertyValue.truthy] at hopen
    split at hopen
    · simp at hopen
    · rename_i hfalsy
      have hvalue : ∀ launchParameters, value ≠ .object launchParameters := by
        intro launchParameters h
        subst h
        exact hfalsy rfl
      cases hrest : TestExecutor.rewriteManifest pathToTests manifest with
      | error e => simp [hrest, Except.map] at hopen
      | ok config1 =>
        exact rewriteManifest_not_ok pathToTests "launchParameters" value (by decide) hvalue
          manifest config1 hkey hrest

/-- The amended C11 at a manifest of the legacy shape. -/
theorem open_rejects_legacy_manifest_witness :
    legacyWorld.testsStat exampleStaging = some true ∧
      legacyWorld.requireJson
          (if true then pathJoin [exampleStaging, CONFIGURATION_FILE] else exampleStaging) =
        some [("launchParameters", .object (some ["-Dfile=./data/x.json"]))] ∧
      ((ManifestValue.object (some ["-Dfile=./data/x.json"])).truthy = true →
          (TestExecutor.new exampleConfig).open legacyWorld exampleStaging =
            .error .ConfigurationParseError) ∧
        ∀ loaded, (TestExecutor.new exampleConfig).open legacyWorld exampleStaging ≠
          .ok loaded :=
  ⟨rfl, rfl,
    open_rejects_legacy_manifest legacyWorld (TestExecutor.new exampleConfig) exampleStaging
      true [("launchParameters", .object (some ["-Dfile=./data/x.json"]))]
      (.object (some ["-Dfile=./data/x.json"])) rfl rfl (by decide!)⟩

/-- C11 fails as stated: a manifest whose top-level `launchParameters` key has the
value `null` passes the check of the legacy shape, and `TestExecutor.open` fails in
its loop with a `TypeError`, not with `ConfigurationParseError`. -/
theorem open_null_launchParameters_not_ConfigurationParseError :
    nullLegacyWorld.requireJson (pathJoin [exampleStaging, CONFIGURATION_FILE]) =
        some [("launchParameters", .null), ("connectionTest", .object (some []))] ∧
      (TestExecutor.new exampleConfig).open nullLegacyWorld exampleStaging =
        .error .TypeError ∧
      (TestExecutor.new exampleConfig).open nullLegacyWorld exampleStaging ≠
        .error .ConfigurationParseError := by
  decide!

end Zemog

namespace Zemog

/-! ## The argument vector of the runner -/

/-- The folder helper spawns nothing. -/
theorem spawnCalls_createFolder (w : World) (folder : String) (forceDelete : Bool) :
    spawnCalls (File.createFolderIfNeeded w folder forceDelete).trace = [] := by
  unfold spawnCalls
  rw [List.filterMap_eq_nil_iff]
  intro e he
  rcases createFolder_effects w folder forceDelete e he with ⟨p, rfl⟩ | ⟨p, rfl⟩ <;> rfl

/-- C12: for every test name that has an entry with launch parameters in the loaded
manifest, the argument vector `TestExecutor.execute` passes to the runner is the
launch parameters of the test as `open` left them, in order, followed by the global
launch parameters, in order, followed by `-jar` and the path of the runner artifact,
and nothing else; the runner is spawned once, as `java`, in the results directory,
unless that directory cannot be made. -/
theorem execute_argument_vector (w : World) (self : TestExecutor) (testName : String)
    (launchParameters : List String) (hname : testName ≠ "")
    (htest : self._config.lookup testName = some (.object (some launchParameters))) :
    spawnCalls (self.execute w testName).trace =
      if (File.createFolderIfNeeded w (pathJoin [w.tmpdir, testName ++ "-" ++ w.random])
          false).result = .resolved () then
        [("java",
          launchParameters ++ self._globalLaunchParameters ++
            ["-jar", pathJoin [w.dirname, "..", self._pathToIridium]],
          pathJoin [w.tmpdir, testName ++ "-" ++ w.random])]
      else [] := by
  have hread : getProperty self._config testName = .own (.object (some launchParameters)) := by
    simp [getProperty, htest]
  have hfolder := spawnCalls_createFolder w (pathJoin [w.tmpdir, testName ++ "-" ++ w.random])
    false
  unfold TestExecutor.execute
  simp only [hname, if_false, hread, PropertyValue.truthy, ManifestValue.truthy,
    PropertyValue.launchParameters, not_true_eq_false]
  rcases createFolder_settles w (pathJoin [w.tmpdir, testName ++ "-" ++ w.random]) false with
    h | h
  · rw [Run.andThen_resolved _ h, if_pos h, Run.andThen_resolved _ (Run.result_emit _)]
    unfold spawnCalls at hfolder ⊢
    simp only [List.filterMap_append, hfolder, Run.trace_emit, TestExecutor.params]
    split <;> rfl
  · rw [Run.andThen_rejected _ h, if_neg (by rw [h]; simp)]
    exact hfolder

/-- C12 at the example: the rewritten parameter of the test, the global parameter,
`-jar` and the path of the runner. -/
theorem execute_argument_vector_witness :
    "connectionTest" ≠ "" ∧
      exampleExecutor._config.lookup "connectionTest" = some (.object (some
        ["-Dfile=file:////tmp/zemog/connectionTest-zip-1700000000000/data/x.json"])) ∧
      spawnCalls (exampleExecutor.execute successWorld "connectionTest").trace =
        [("java",
          ["-Dfile=file:////tmp/zemog/connectionTest-zip-1700000000000/data/x.json",
            "-Xmx512m", "-jar", "/opt/zemog/lib/iridium.jar"],
          "/tmp/connectionTest-0.5")] :=
  ⟨by decide, by decide!,
    (execute_argument_vector successWorld exampleExecutor "connectionTest"
      ["-Dfile=file:////tmp/zemog/connectionTest-zip-1700000000000/data/x.json"] (by decide)
      (by decide!)).trans (by decide!)⟩

/-- What a successful `open` has read and stored, and what it has kept. -/
theorem open_ok (w : World) (self loaded : TestExecutor) (pathToTests : String)
    (isDirectory : Bool) (manifest : Manifest)
    (hstat : w.testsStat pathToTests = some isDirectory)
    (hjson : w.requireJson
      (if isDirectory then pathJoin [pathToTests, CONFIGURATION_FILE] else pathToTests) =
        some manifest)
    (hopen : self.open w pathToTests = .ok loaded) :
    TestExecutor.rewriteManifest pathToTests manifest = .ok loaded._config ∧
      loaded._pathToIridium = self._pathToIridium ∧
      loaded._globalLaunchParameters = self._globalLaunchParameters := by
  unfold TestExecutor.open at hopen
  simp only [hstat, hjson] at hopen
  split at hopen
  · simp at hopen
  · cases hrest : TestExecutor.rewriteManifest pathToTests manifest with
    | error e => simp [hrest, Except.map] at hopen
    | ok config1 =>
      simp only [hrest, Except.map, Except.ok.injEq] at hopen
      subst hopen
      exact ⟨rfl, rfl, rfl⟩

/-- From the manifest file to the loaded manifest: after `open`, a test of the
manifest file has its launch parameters rewritten, and the executor has kept its
global launch parameters and the path of the runner. -/
theorem open_entry (w : World) (self loaded : TestExecutor)
    (pathToTests testName : String) (isDirectory : Bool) (manifest : Manifest)
    (launchParameters : Option (List String))
    (hstat : w.testsStat pathToTests = some isDirectory)
    (hjson : w.requireJson
      (if isDirectory then pathJoin [pathToTests, CONFIGURATION_FILE] else pathToTests) =
        some manifest)
    (hopen : self.open w pathToTests = .ok loaded)
    (hversion : testName ≠ "version")
    (htest : manifest.lookup testName = some (.object launchParameters)) :
    loaded._config.lookup testName = some (.object (some
        ((launchParameters.getD []).map (rewriteLaunchParameter pathToTests)))) ∧
      loaded._pathToIridium = self._pathToIridium ∧
      loaded._globalLaunchParameters = self._globalLaunchParameters := by
  obtain ⟨hconfig, hpath, hglobal⟩ := open_ok w self loaded pathToTests isDirectory manifest
    hstat hjson hopen
  exact ⟨rewriteManifest_lookup pathToTests testName launchParameters hversion manifest
    loaded._config hconfig htest, hpath, hglobal⟩

/-! ## Blob store paths -/

/-- A split has at least one part. -/
theorem splitChar_ne_nil (sep : Char) (s : List Char) : splitChar sep s ≠ [] := by
  cases s with
  | nil => simp [splitChar]
  | cons c cs =>
    unfold splitChar
    split
    · simp
    · split <;> simp

/-- Joining the parts of a split gives the text back. -/
theorem joinChar_splitChar (sep : Char) (s : List Char) :
    joinChar sep (splitChar sep s) = s := by
  induction s with
  | nil => rfl
  | cons c cs ih =>
    unfold splitChar
    split
    · rename_i hc
      subst hc
      cases hsplit : splitChar c cs with
      | nil => exact absurd hsplit (splitChar_ne_nil _ _)
      | cons seg segs =>
        rw [hsplit] at ih
        simp only [joinChar, List.nil_append, ih]
    · cases hsplit : splitChar sep cs with
      | nil => exact absurd hsplit (splitChar_ne_nil _ _)
      | cons seg segs =>
        rw [hsplit] at ih
        cases segs with
        | nil =>
          simp only [joinChar] at ih ⊢
          rw [ih]
        | cons seg1 segs1 =>
          simp only [joinChar, List.cons_append] at ih ⊢
          rw [ih]

/-- The first part of a split is the text before the first separator. -/
theorem splitChar_append (sep : Char) (first rest : List Char) (h : sep ∉ first) :
    splitChar sep (first ++ sep :: rest) = first :: splitChar sep rest := by
  induction first with
  | nil => simp [splitChar]
  | cons c cs ih =>
    have hc : c ≠ sep := fun e => h (by simp [e])
    have hcs : sep ∉ cs := fun e => h (List.mem_cons_of_mem _ e)
    rw [List.cons_append, splitChar, if_neg hc, ih hcs]

/-- C13: for every bucket name without `/` and every key, `File.getPathObject` of
`s3://` followed by the bucket, `/` and the key returns that bucket and that key,
slashes inside the key included, so that the two put back together give the input. -/
theorem getPathObject_roundtrip (bucket key : String) (hbucket : '/' ∉ bucket.data) :
    File.getPathObject ("s3://" ++ bucket ++ "/" ++ key) = ⟨bucket, key⟩ ∧
      "s3://" ++ (File.getPathObject ("s3://" ++ bucket ++ "/" ++ key)).Bucket ++ "/" ++
          (File.getPathObject ("s3://" ++ bucket ++ "/" ++ key)).Key =
        "s3://" ++ bucket ++ "/" ++ key := by
  have hdata : ("s3://" ++ bucket ++ "/" ++ key).data =
      's' :: '3' :: ':' :: '/' :: '/' :: (bucket.data ++ '/' :: key.data) := by
    simp [String.data_append]
  have hscheme : removeScheme ("s3://" ++ bucket ++ "/" ++ key).data =
      bucket.data ++ '/' :: key.data := by
    rw [hdata]
    simp [removeScheme]
  have hobject : File.getPathObject ("s3://" ++ bucket ++ "/" ++ key) = ⟨bucket, key⟩ := by
    unfold File.getPathObject
    simp only [hscheme, splitChar_append '/' _ _ hbucket, List.headD_cons, List.tail_cons,
      joinChar_splitChar]
  exact ⟨hobject, by rw [hobject]⟩

/-- C13 at a key with single and double slashes. -/
theorem getPathObject_roundtrip_witness :
    '/' ∉ "ag-online-zemog".data ∧
      File.getPathObject ("s3://" ++ "ag-online-zemog" ++ "/" ++ "tests//local/test.zip") =
        ⟨"ag-online-zemog", "tests//local/test.zip"⟩ ∧
      "s3://" ++
          (File.getPathObject
            ("s3://" ++ "ag-online-zemog" ++ "/" ++ "tests//local/test.zip")).Bucket ++ "/" ++
          (File.getPathObject
            ("s3://" ++ "ag-online-zemog" ++ "/" ++ "tests//local/test.zip")).Key =
        "s3://" ++ "ag-online-zemog" ++ "/" ++ "tests//local/test.zip" :=
  ⟨by decide, getPathObject_roundtrip "ag-online-zemog" "tests//local/test.zip" (by decide)⟩

/-! ## The metrics sink -/

/-- C14: for every counter name and value, `Metrics.put` sends one request, in the
namespace `Zemog`, with exactly three data points of that name, that value and the
unit `Count`: one without dimensions, one with the dimension `InstanceId` set to the
instance id of the worker, one with the dimension `ApplicationName` set to the
current application name; `putExecuted`, `putFailed`, `putSuccessful` and
`putException` are that request with the value `1` under four distinct names. -/
theorem put_sends_three_data_points (self : Metrics) :
    (∀ (metricName : String) (metricValue : Int),
        self.put metricName metricValue =
          ⟨[.putMetricData ⟨"Zemog",
              [⟨metricName, "Count", metricValue, none⟩,
                ⟨metricName, "Count", metricValue, some [("InstanceId", self._instanceId)]⟩,
                ⟨metricName, "Count", metricValue,
                  some [("ApplicationName", self._appName)]⟩]⟩],
            .resolved ()⟩) ∧
      self.putExecuted = self.put "ExecutedTests" 1 ∧
      self.putFailed = self.put "FailedTests" 1 ∧
      self.putSuccessful = self.put "SuccessfulTests" 1 ∧
      self.putException = self.put "TestExceptions" 1 ∧
      [TEST_EXECUTED, TEST_FAILED, TEST_SUCCESSFUL, TEST_EXCEPTION].Nodup := by
  refine ⟨fun metricName metricValue => rfl, rfl, rfl, rfl, rfl, by decide⟩

end Zemog
